import Mathlib

/-!
Verification of the recommendation-engine core of the repository
(`backend/app/models/{content_based,item_based,user_based,hybrid}.py`).

Modelling conventions:
* IEEE-754 floats are idealised as real numbers `ℝ` in the similarity layer
  (which divides by square roots of sums of squares) and the query layer is
  kept polymorphic over a `LinearOrderedField` so that concrete query-level
  computations can additionally be carried out over `ℚ`.
* pandas data frames become lists of tuples, numpy arrays become `List ℝ`
  (resp. `List (List ℝ)` for matrices), Python `dict`s become association
  lists where an insertion conses the new binding in front (lookup finds the
  most recent binding, exactly like a `dict` assignment overwrites).
* Python `set` arguments that are only tested for membership become `List ℤ`.
* `np.argsort(...)[::-1]` sorts with an unspecified tie order (numpy's default
  quicksort is not stable); we fix the deterministic representative that keeps
  ties in ascending index order.  Every concrete input used in a theorem below
  is tie-free, and no general theorem depends on the tie order.
* Fallible code (`raise RuntimeError`) is modelled with `Except String`.
-/

open List

/-- An output row of `recommend` / `get_similar`: only the movie id and the
numeric score/similarity matter for the verified properties; title/genre
metadata plumbing is omitted. -/
structure Rec (α : Type) where
  movieId : ℤ
  score : α
  deriving DecidableEq, Repr

/-- `np.clip(x, 0.5, 5.0)` -/
def clip {α : Type} [LinearOrderedField α] (x : α) : α :=
  min (max x (1/2)) 5

/-- Descending comparison on a key: `keyGE key a b` means `a`'s key is ≥ `b`'s.
`List.insertionSort` with this relation is a stable descending sort, the
behaviour of Python's `list.sort(key=..., reverse=True)`. -/
def keyGE {α β : Type} [LinearOrder α] (key : β → α) (a b : β) : Prop :=
  key b ≤ key a

instance {α β : Type} [LinearOrder α] (key : β → α) : DecidableRel (keyGE key) :=
  fun a b => inferInstanceAs (Decidable (key b ≤ key a))

instance {α β : Type} [LinearOrder α] (key : β → α) : IsTotal β (keyGE key) :=
  ⟨fun a b => le_total (key b) (key a)⟩

instance {α β : Type} [LinearOrder α] (key : β → α) : IsTrans β (keyGE key) :=
  ⟨fun _ _ _ h1 h2 => le_trans h2 h1⟩

/-- Stable descending sort by a key (Python `sort(key=..., reverse=True)`). -/
def sortDescBy {α β : Type} [LinearOrder α] (key : β → α) (l : List β) : List β :=
  l.insertionSort (keyGE key)

/-- The deterministic representative of `np.argsort(v)[::-1]`: indices of `v`
in descending order of value, ties in ascending index order. -/
def argsortDesc {α : Type} [LinearOrderedField α] (v : List α) : List ℕ :=
  sortDescBy (fun i => v.getD i 0) (List.range v.length)

/-- Association-list lookup (first, i.e. most recent, binding wins). -/
def alookup {κ β : Type} [DecidableEq κ] (k : κ) : List (κ × β) → Option β
  | [] => none
  | p :: t => if p.1 = k then some p.2 else alookup k t

/-- A Python `dict` assignment `d[k] = v`: the new binding shadows old ones. -/
def dinsert {κ β : Type} (d : List (κ × β)) (k : κ) (v : β) : List (κ × β) :=
  (k, v) :: d

/-- A loop of `dict` assignments, in order. -/
def dinsertAll {κ β : Type} (d : List (κ × β)) (ps : List (κ × β)) : List (κ × β) :=
  ps.foldl (fun acc p => dinsert acc p.1 p.2) d

/-- Matrix entry access `m[i][j]`, defaulting to `0` out of range. -/
def mget {α : Type} [Zero α] (m : List (List α)) (i j : ℕ) : α :=
  (m.getD i []).getD j 0



/-! ### Vector / similarity layer (idealised over `ℝ`)

`sklearn.metrics.pairwise.cosine_similarity(X)` normalises every row of `X`
(rows whose norm is `0` are divided by `1` instead) and multiplies the result
with its transpose; `user_based._compute_user_similarity` re-implements the
same computation by hand (`np.where(norms > 0, norms, 1)`).  Both are embedded
as `cosSim` below. -/

/-- Dot product of two rows (`numpy` row · row). -/
def dotp (x y : List ℝ) : ℝ :=
  (List.zipWith (· * ·) x y).sum

/-- The norm used by sklearn's `normalize`: the Euclidean norm, with `0`
replaced by `1` so that zero rows stay zero instead of dividing by zero. -/
noncomputable def sknorm (x : List ℝ) : ℝ :=
  if Real.sqrt (dotp x x) = 0 then 1 else Real.sqrt (dotp x x)

/-- Cosine similarity of two rows, with sklearn's zero-norm convention. -/
noncomputable def cosSim (x y : List ℝ) : ℝ :=
  dotp x y / (sknorm x * sknorm y)

/-- All pairwise similarities: `cosine_similarity(rows)` as a dense matrix. -/
noncomputable def simPairs (rows : List (List ℝ)) : List (List ℝ) :=
  rows.map (fun x => rows.map (fun y => cosSim x y))

/-- `np.fill_diagonal(m, 0)`. -/
def fillDiag0 (m : List (List ℝ)) : List (List ℝ) :=
  m.mapIdx (fun i row => row.mapIdx (fun j v => if i = j then (0 : ℝ) else v))

/-- Number of strictly positive entries of a row (`np.sum(row > 0)`). -/
noncomputable def countPos (v : List ℝ) : ℕ :=
  (v.filter (fun r => 0 < r)).length

/-- Number of nonzero entries of a row (`np.sum(row != 0)`). -/
noncomputable def countNZ (v : List ℝ) : ℕ :=
  (v.filter (fun r => r ≠ 0)).length

/-- `UserBasedModel._compute_user_means` for one row: full row sum divided by
the number of rated (positive) entries, with `3.0` for users without ratings
(`out=np.full_like(sums, 3.0), where=counts > 0`). -/
noncomputable def userMean (v : List ℝ) : ℝ :=
  if countPos v = 0 then 3 else v.sum / (countPos v : ℝ)

/-- Row-wise mean centering in `_compute_user_similarity`:
`centered = np.where(matrix > 0, matrix - mean, 0)`. -/
noncomputable def centerUser (v : List ℝ) : List ℝ :=
  v.map (fun r => if 0 < r then r - userMean v else 0)

/-- `np.nanmean` of a row whose zeros were replaced by NaN: the mean of the
nonzero entries.  A row with no nonzero entry has NaN mean in numpy; its
centered row is all zeros either way, so the value `0` chosen here is
irrelevant (`centerItem` only subtracts the mean from nonzero entries). -/
noncomputable def itemMean (v : List ℝ) : ℝ :=
  if countNZ v = 0 then 0 else (v.filter (fun r => r ≠ 0)).sum / (countNZ v : ℝ)

/-- `ItemBasedModel._compute_item_similarity` mean centering:
`np.nan_to_num(item_user_matrix - item_means)` where zero meant NaN. -/
noncomputable def centerItem (v : List ℝ) : List ℝ :=
  v.map (fun r => if r ≠ 0 then r - itemMean v else 0)

/-- `ContentBasedModel.fit`: `cosine_similarity(tfidf_matrix)` — note that the
diagonal is *not* zeroed for the content model. -/
noncomputable def contentSimMat (feats : List (List ℝ)) : List (List ℝ) :=
  simPairs feats

/-- `ItemBasedModel._compute_item_similarity`: adjusted-cosine similarity of
the item-user rows, diagonal zeroed. -/
noncomputable def itemSimMat (itemRows : List (List ℝ)) : List (List ℝ) :=
  fillDiag0 (simPairs (itemRows.map centerItem))

/-- `UserBasedModel._compute_user_similarity`: cosine similarity of the
mean-centered user rows, diagonal zeroed. -/
noncomputable def userSimMat (userRows : List (List ℝ)) : List (List ℝ) :=
  fillDiag0 (simPairs (userRows.map centerUser))

/-! ### Rating matrix construction -/

/-- A rating tuple `(userId, movieId, rating)`. -/
abbrev RatingT : Type := ℤ × ℤ × ℝ

/-- One cell of `scipy.sparse.csr_matrix((data, (rows, cols)))).toarray()`:
scipy sums duplicate coordinates, so the cell is the sum of all matching
ratings (a single rating for deduplicated input, `0` for an unrated pair). -/
def cellSum (rats : List RatingT) (u m : ℤ) : ℝ :=
  ((rats.filter (fun r => r.1 = u ∧ r.2.1 = m)).map (fun r => r.2.2)).sum

/-- The dense user-item matrix (rows = users in `uids` order). -/
def buildUserItem (uids mids : List ℤ) (rats : List RatingT) : List (List ℝ) :=
  uids.map (fun u => mids.map (fun m => cellSum rats u m))

/-- The item-user matrix `user_item_matrix.T` (rows = items). -/
def buildItemUser (uids mids : List ℤ) (rats : List RatingT) : List (List ℝ) :=
  mids.map (fun m => uids.map (fun u => cellSum rats u m))

/-- Insert into a sorted duplicate-free list of ids. -/
def insSorted (x : ℤ) : List ℤ → List ℤ
  | [] => [x]
  | y :: t => if x < y then x :: y :: t else if x = y then y :: t else y :: insSorted x t

/-- `sorted(df[col].unique())`. -/
def sortedUnique (l : List ℤ) : List ℤ :=
  l.foldr insSorted []

/-! ### Model state

Each Python model object becomes a structure.  The index dictionaries are kept
as association lists because `fit` *merges* new bindings into the existing
dictionaries (`self.movie_id_to_idx[movie_id] = idx` in a loop, without
clearing) — bindings from an earlier `fit` survive, which matters for C9.
The query layer is polymorphic over a `LinearOrderedField` (instantiated at
`ℝ` by `fit`, and at `ℚ` for executable witnesses). -/

/-- A row of the content model's `movies_df` (columns used by the model). -/
structure CMovie (α : Type) where
  movieId : ℤ
  avgRating : α
  ratingCount : ℕ
  deriving DecidableEq, Repr

/-- A row of the collaborative models' optional `movies_df`. -/
structure PopMovie (α : Type) where
  movieId : ℤ
  avgRating : α
  deriving DecidableEq, Repr

structure ContentState (α : Type) where
  movies : List (CMovie α)
  tfidf : List (List α)
  simMat : List (List α)
  movieIdToIdx : List (ℤ × ℕ)
  idxToMovieId : List (ℕ × ℤ)
  isFitted : Bool
  deriving DecidableEq

/-- `ContentBasedModel.__init__`. -/
def contentInit {α : Type} : ContentState α :=
  ⟨[], [], [], [], [], false⟩

/-- `ContentBasedModel.fit(movies_df, tfidf_matrix)` on the code path where the
TF-IDF matrix is supplied and embeddings are not used (`use_embeddings=False`,
`embeddings=None`): the similarity matrix is `cosine_similarity(tfidf_matrix)`.
Note the index dictionaries are merged into, not rebuilt. -/
noncomputable def contentFit (st : ContentState ℝ) (moviesDf : List (CMovie ℝ))
    (tfidf : List (List ℝ)) : ContentState ℝ :=
  { movies := moviesDf
    tfidf := tfidf
    simMat := contentSimMat tfidf
    movieIdToIdx := dinsertAll st.movieIdToIdx (moviesDf.enum.map (fun p => (p.2.movieId, p.1)))
    idxToMovieId := dinsertAll st.idxToMovieId (moviesDf.enum.map (fun p => (p.1, p.2.movieId)))
    isFitted := true }

structure ItemState (α : Type) where
  k : ℕ
  minRatings : ℕ
  moviesDf : Option (List (PopMovie α))
  userIds : List ℤ
  movieIds : List ℤ
  matrix : List (List α)
  sim : List (List α)
  userToIdx : List (ℤ × ℕ)
  idxToUser : List (ℕ × ℤ)
  movieToIdx : List (ℤ × ℕ)
  idxToMovie : List (ℕ × ℤ)
  isFitted : Bool
  deriving DecidableEq

/-- `ItemBasedModel.__init__(k, min_ratings)`. -/
def itemInit {α : Type} (k minRatings : ℕ) : ItemState α :=
  ⟨k, minRatings, none, [], [], [], [], [], [], [], [], false⟩

/-- `ItemBasedModel.fit(ratings_df, movies_df)`: drop movies with fewer than
`min_ratings` ratings, build the dense user-item matrix, compute the
adjusted-cosine item similarity.  Dictionaries are merged into, not rebuilt. -/
noncomputable def itemFit (st : ItemState ℝ) (ratings : List RatingT)
    (moviesDf : Option (List (PopMovie ℝ))) : ItemState ℝ :=
  let filtered := ratings.filter (fun r =>
    decide (st.minRatings ≤ (ratings.filter (fun r2 => r2.2.1 = r.2.1)).length))
  let uids := sortedUnique (filtered.map (fun r => r.1))
  let mids := sortedUnique (filtered.map (fun r => r.2.1))
  { st with
    moviesDf := moviesDf
    userIds := uids
    movieIds := mids
    matrix := buildUserItem uids mids filtered
    sim := itemSimMat (buildItemUser uids mids filtered)
    userToIdx := dinsertAll st.userToIdx (uids.enum.map (fun p => (p.2, p.1)))
    idxToUser := dinsertAll st.idxToUser (uids.enum.map (fun p => (p.1, p.2)))
    movieToIdx := dinsertAll st.movieToIdx (mids.enum.map (fun p => (p.2, p.1)))
    idxToMovie := dinsertAll st.idxToMovie (mids.enum.map (fun p => (p.1, p.2)))
    isFitted := true }

structure UserState (α : Type) where
  k : ℕ
  minCommon : ℕ
  moviesDf : Option (List (PopMovie α))
  userIds : List ℤ
  movieIds : List ℤ
  matrix : List (List α)
  userMeans : List α
  sim : List (List α)
  userToIdx : List (ℤ × ℕ)
  idxToUser : List (ℕ × ℤ)
  movieToIdx : List (ℤ × ℕ)
  idxToMovie : List (ℕ × ℤ)
  isFitted : Bool
  deriving DecidableEq

/-- `UserBasedModel.__init__(k, min_common)`.  `min_common` is stored here and
— as the theorems for C7 establish — never read anywhere else. -/
def userInit {α : Type} (k minCommon : ℕ) : UserState α :=
  ⟨k, minCommon, none, [], [], [], [], [], [], [], [], [], false⟩

/-- `UserBasedModel.fit(ratings_df, movies_df)`. -/
noncomputable def userFit (st : UserState ℝ) (ratings : List RatingT)
    (moviesDf : Option (List (PopMovie ℝ))) : UserState ℝ :=
  let uids := sortedUnique (ratings.map (fun r => r.1))
  let mids := sortedUnique (ratings.map (fun r => r.2.1))
  let matrix := buildUserItem uids mids ratings
  { st with
    moviesDf := moviesDf
    userIds := uids
    movieIds := mids
    matrix := matrix
    userMeans := matrix.map userMean
    sim := userSimMat matrix
    userToIdx := dinsertAll st.userToIdx (uids.enum.map (fun p => (p.2, p.1)))
    idxToUser := dinsertAll st.idxToUser (uids.enum.map (fun p => (p.1, p.2)))
    movieToIdx := dinsertAll st.movieToIdx (mids.enum.map (fun p => (p.2, p.1)))
    idxToMovie := dinsertAll st.idxToMovie (mids.enum.map (fun p => (p.1, p.2)))
    isFitted := true }

/-! ### Query layer (polymorphic over a `LinearOrderedField`) -/

section Queries

variable {α : Type} [LinearOrderedField α]

/-- `ContentBasedModel.get_similar_movies(movie_id, n, exclude)`.  The loop
"break once `n` results are collected, skip the query movie and exclusions"
is literally `take n` of the filtered argsort order. -/
def contentGetSimilar (st : ContentState α) (movieId : ℤ) (n : ℕ)
    (excl : List ℤ) : Except String (List (Rec α)) :=
  if !st.isFitted then .error "Model not fitted. Call fit() first."
  else
    match alookup movieId st.movieIdToIdx with
    | none => .ok []
    | some idx =>
      let sims := st.simMat.getD idx []
      let keep := (argsortDesc sims).filter (fun j =>
        decide ((alookup j st.idxToMovieId).getD 0 ≠ movieId ∧
          (alookup j st.idxToMovieId).getD 0 ∉ excl))
      .ok ((keep.take n).map (fun j => ⟨(alookup j st.idxToMovieId).getD 0, sims.getD j 0⟩))

/-- `ContentBasedModel._get_popular_movies(n, exclude)` (the `ratingCount`
column is present): sort by rating count, then average rating, descending.
The two-pass stable sort is the standard equivalent of the two-column sort. -/
def contentPopular (st : ContentState α) (n : ℕ) (excl : List ℤ) : List (Rec α) :=
  let sorted := sortDescBy (fun m : CMovie α => m.ratingCount)
    (sortDescBy (fun m : CMovie α => m.avgRating) st.movies)
  ((sorted.filter (fun m => decide (m.movieId ∉ excl))).take n).map
    (fun m => ⟨m.movieId, m.avgRating⟩)

/-- `ContentBasedModel.recommend_for_user(user_id, user_rated_movies, n, exclude)`.

Returns the result list *and* the exclusion set as seen by the caller after
the call: `exclude = exclude or set()` keeps the caller's object only when it
is non-empty (an empty set is falsy), and `exclude.update(...)` then mutates
it in place.

`junk` models the uninitialised entries produced by
`np.divide(scores, weights, where=weights > 0)` *without* an `out=` argument:
positions where the mask is false are arbitrary memory contents, and the
following `np.nan_to_num` only replaces NaN/inf, not arbitrary finite junk. -/
def contentRecommendForUser (st : ContentState α) (rated : List (ℤ × α))
    (n : ℕ) (excl : List ℤ) (junk : ℕ → α) :
    Except String (List (Rec α) × List ℤ) :=
  if !st.isFitted then .error "Model not fitted. Call fit() first."
  else if rated.isEmpty then .ok (contentPopular st n excl, excl)
  else
    let callerExcl := if excl.isEmpty then excl else excl ++ rated.map (fun r => r.1)
    let localExcl := excl ++ rated.map (fun r => r.1)
    let contribs := rated.filterMap (fun r =>
      (alookup r.1 st.movieIdToIdx).map (fun idx => (idx, (r.2 - 5/2) / (5/2))))
    let weight := fun j => (contribs.map (fun c => |mget st.simMat c.1 j|)).sum
    let score := fun j =>
      if 0 < weight j then (contribs.map (fun c => mget st.simMat c.1 j * c.2)).sum / weight j
      else junk j
    let scoreList := (List.range st.movies.length).map score
    let keep := (argsortDesc scoreList).filter (fun j =>
      decide ((alookup j st.idxToMovieId).getD 0 ∉ localExcl))
    .ok ((keep.take n).map (fun j => ⟨(alookup j st.idxToMovieId).getD 0, scoreList.getD j 0⟩),
      callerExcl)

/-- `ContentBasedModel.predict_rating(user_id, movie_id, user_rated_movies)`:
similarity-weighted average of the user's ratings over positively similar
rated movies; `None` when unfitted, unknown movie, empty history, or no
positive similarity mass. -/
def contentPredict (st : ContentState α) (_userId movieId : ℤ)
    (rated : List (ℤ × α)) : Option α :=
  if !st.isFitted then none
  else
    match alookup movieId st.movieIdToIdx with
    | none => none
    | some mi =>
      if rated.isEmpty then none
      else
        let pairs := rated.filterMap (fun r =>
          (alookup r.1 st.movieIdToIdx).map (fun ri => (mget st.simMat mi ri, r.2)))
        let pos := pairs.filter (fun p => decide (0 < p.1))
        let ssum := (pos.map (fun p => p.1)).sum
        if 0 < ssum then some ((pos.map (fun p => p.1 * p.2)).sum / ssum) else none

/-- `_get_popular_items(n, exclude)`, shared verbatim by the item-based and
user-based models: by average rating descending, restricted to fitted items. -/
def popularItems (moviesDf : Option (List (PopMovie α))) (movieToIdx : List (ℤ × ℕ))
    (n : ℕ) (excl : List ℤ) : List (Rec α) :=
  match moviesDf with
  | none => []
  | some df =>
    let sorted := sortDescBy (fun m : PopMovie α => m.avgRating) df
    ((sorted.filter (fun m =>
      decide (m.movieId ∉ excl ∧ (alookup m.movieId movieToIdx).isSome = true))).take n).map
      (fun m => ⟨m.movieId, m.avgRating⟩)

/-- `ItemBasedModel.get_similar_items(movie_id, n)`: the top `n` of the raw
argsort order — note that the query item itself is *not* skipped (its
similarity was zeroed on the diagonal, but it stays in the candidate list). -/
def itemGetSimilarItems (st : ItemState α) (movieId : ℤ) (n : ℕ) : List (Rec α) :=
  if !st.isFitted then []
  else
    match alookup movieId st.movieToIdx with
    | none => []
    | some idx =>
      let sims := st.sim.getD idx []
      ((argsortDesc sims).take n).map (fun j => ⟨(alookup j st.idxToMovie).getD 0, sims.getD j 0⟩)

/-- Keep the `k` highest-similarity pairs when there are more than `k`
(`if len(rated_indices) > self.k: np.argsort(...)[::-1][:k]`); with at most
`k` candidates the list is left as is, in index order. -/
def topKPairsDesc (k : ℕ) (pairs : List (ℕ × α)) : List (ℕ × α) :=
  if k < pairs.length then (sortDescBy (fun p : ℕ × α => p.2) pairs).take k else pairs

/-- `ItemBasedModel._predict_for_idx` (also the core of `predict_rating`):
top-`k` similar already-rated items, positive similarities only, similarity
weighted average of the user's ratings (unclipped). -/
def itemPredictIdx (st : ItemState α) (userRow : List α) (movieIdx : ℕ)
    (ratedIdx : List ℕ) : Option α :=
  if ratedIdx.isEmpty then none
  else
    let pairs := ratedIdx.map (fun j => (j, mget st.sim movieIdx j))
    let pos := (topKPairsDesc st.k pairs).filter (fun p => decide (0 < p.2))
    if pos.isEmpty then none
    else some ((pos.map (fun p => p.2 * userRow.getD p.1 0)).sum / (pos.map (fun p => p.2)).sum)

/-- `ItemBasedModel.predict_rating(user_id, movie_id)`: `None` when unfitted
or either id unknown, otherwise the clipped weighted average (still `None`
when the user rated nothing or no positive similarity survives). -/
def itemPredict (st : ItemState α) (userId movieId : ℤ) : Option α :=
  if !st.isFitted then none
  else
    match alookup userId st.userToIdx, alookup movieId st.movieToIdx with
    | some ui, some mi =>
      let row := st.matrix.getD ui []
      let ratedIdx := (List.range st.movieIds.length).filter (fun j => decide (0 < row.getD j 0))
      (itemPredictIdx st row mi ratedIdx).map clip
    | _, _ => none

/-- `ItemBasedModel.recommend(user_id, n, exclude)`. -/
def itemRecommend (st : ItemState α) (userId : ℤ) (n : ℕ) (excl : List ℤ) : List (Rec α) :=
  if !st.isFitted then []
  else
    match alookup userId st.userToIdx with
    | none => popularItems st.moviesDf st.movieToIdx n excl
    | some ui =>
      let row := st.matrix.getD ui []
      let ratedIdx := (List.range st.movieIds.length).filter (fun j => decide (0 < row.getD j 0))
      let excl2 := excl ++ ratedIdx.map (fun j => (alookup j st.idxToMovie).getD 0)
      let preds := (List.range st.movieIds.length).filterMap (fun mi =>
        let mid := (alookup mi st.idxToMovie).getD 0
        if mid ∈ excl2 then none
        else (itemPredictIdx st row mi ratedIdx).map (fun p => (⟨mid, p⟩ : Rec α)))
      (sortDescBy (fun e : Rec α => e.score) preds).take n

/-- `UserBasedModel.get_similar_users(user_id, n)`. -/
def userGetSimilarUsers (st : UserState α) (userId : ℤ) (n : ℕ) : List (ℤ × α) :=
  if !st.isFitted then []
  else
    match alookup userId st.userToIdx with
    | none => []
    | some ui =>
      let sims := st.sim.getD ui []
      ((argsortDesc sims).take n).map (fun j => ((alookup j st.idxToUser).getD 0, sims.getD j 0))

/-- `UserBasedModel.predict_rating(user_id, movie_id)`: the user's own mean
plus the similarity-weighted average deviation of the top-`k` positively
similar raters, clipped; falls back to the user's own (unclipped) mean when
nobody rated the movie or no positive similarity survives. -/
def userPredict (st : UserState α) (userId movieId : ℤ) : Option α :=
  if !st.isFitted then none
  else
    match alookup userId st.userToIdx, alookup movieId st.movieToIdx with
    | some ui, some mi =>
      let raters := (List.range st.userIds.length).filter (fun r => decide (0 < mget st.matrix r mi))
      if raters.isEmpty then some (st.userMeans.getD ui 0)
      else
        let pairs := raters.map (fun r => (r, mget st.sim ui r))
        let pos := (topKPairsDesc st.k pairs).filter (fun p => decide (0 < p.2))
        if pos.isEmpty then some (st.userMeans.getD ui 0)
        else
          let wsum := (pos.map (fun p => p.2)).sum
          let dev := (pos.map (fun p =>
            p.2 * (mget st.matrix p.1 mi - st.userMeans.getD p.1 0))).sum
          some (clip (st.userMeans.getD ui 0 + dev / wsum))
    | _, _ => none

/-- `UserBasedModel.recommend(user_id, n, exclude)`. -/
def userRecommend (st : UserState α) (userId : ℤ) (n : ℕ) (excl : List ℤ) : List (Rec α) :=
  if !st.isFitted then []
  else
    match alookup userId st.userToIdx with
    | none => popularItems st.moviesDf st.movieToIdx n excl
    | some ui =>
      let row := st.matrix.getD ui []
      let ratedIdx := (List.range st.movieIds.length).filter (fun j => decide (0 < row.getD j 0))
      let excl2 := excl ++ ratedIdx.map (fun j => (alookup j st.idxToMovie).getD 0)
      let simRow := st.sim.getD ui []
      let posUsers := (((argsortDesc simRow).take st.k).map (fun j => (j, simRow.getD j 0))).filter
        (fun p => decide (0 < p.2))
      if posUsers.isEmpty then popularItems st.moviesDf st.movieToIdx n excl2
      else
        let preds := (List.range st.movieIds.length).filterMap (fun mi =>
          let mid := (alookup mi st.idxToMovie).getD 0
          if mid ∈ excl2 then none
          else
            let nbrs := posUsers.filter (fun p => decide (0 < mget st.matrix p.1 mi))
            if nbrs.isEmpty then none
            else
              let wsum := (nbrs.map (fun p => p.2)).sum
              let dev := (nbrs.map (fun p =>
                p.2 * (mget st.matrix p.1 mi - st.userMeans.getD p.1 0))).sum
              some (⟨mid, clip (st.userMeans.getD ui 0 + dev / wsum)⟩ : Rec α))
        (sortDescBy (fun e : Rec α => e.score) preds).take n

end Queries

/-! ### Hybrid combiner

`HybridModel.recommend` consults its three sub-models; the embedding takes the
sub-models as function parameters (the fitted hybrid always calls them with
`n=n*2` and its current exclusion set).  The candidate dictionary
`all_scores` (a Python `dict`, insertion ordered) becomes an in-order list of
`HCand` records; `scores['content'] = ...` overwrites, so within one sub-model
list the last occurrence of a movie id wins. -/

/-- Which sub-model produced a score (`scores['content'/'item'/'user']`). -/
inductive HSrc
  | c
  | i
  | u
  deriving DecidableEq, Repr

/-- A candidate entry of `all_scores`: the movie id and the optional
per-sub-model scores. -/
structure HCand (α : Type) where
  movieId : ℤ
  sc : Option α
  si : Option α
  su : Option α
  deriving DecidableEq, Repr

/-- A freshly created `all_scores[movie_id]` entry (no scores yet). -/
def blankCand {α : Type} (m : ℤ) : HCand α :=
  ⟨m, none, none, none⟩

/-- `all_scores[movie_id]['scores'][tag] = s`. -/
def setScore {α : Type} : HSrc → HCand α → α → HCand α
  | .c, cand, s => { cand with sc := some s }
  | .i, cand, s => { cand with si := some s }
  | .u, cand, s => { cand with su := some s }

/-- Read the score slot written by `setScore t`. -/
def getScore {α : Type} : HSrc → HCand α → Option α
  | .c, cand => cand.sc
  | .i, cand => cand.si
  | .u, cand => cand.su

/-- Process one recommendation of sub-model `t`: create the entry if the id is
new (appending in insertion order), then write the score slot. -/
def addEntry {α : Type} (t : HSrc) : List (HCand α) → Rec α → List (HCand α)
  | [], e => [setScore t (blankCand e.movieId) e.score]
  | c :: r, e =>
    if c.movieId = e.movieId then setScore t c e.score :: r else c :: addEntry t r e

/-- Process a whole sub-model recommendation list. -/
def addAll {α : Type} (t : HSrc) (l : List (HCand α)) (es : List (Rec α)) : List (HCand α) :=
  es.foldl (addEntry t) l

/-- The `all_scores` dictionary, built content recs first, then item, then
user (the order of the three loops in `HybridModel.recommend`). -/
def hybridCandidates {α : Type} (cb ib ub : List (Rec α)) : List (HCand α) :=
  addAll .u (addAll .i (addAll .c [] cb) ib) ub

section Hybrid

variable {α : Type} [LinearOrderedField α]

/-- Weighted sum of the sub-model scores that are present. -/
def blendNum (wc wi wu : α) (c : HCand α) : α :=
  (match c.sc with | some s => s * wc | none => 0) +
  (match c.si with | some s => s * wi | none => 0) +
  (match c.su with | some s => s * wu | none => 0)

/-- Sum of the weights whose sub-model scored this candidate. -/
def blendDen (wc wi wu : α) (c : HCand α) : α :=
  (if c.sc.isSome then wc else 0) + (if c.si.isSome then wi else 0) +
  (if c.su.isSome then wu else 0)

/-- `final_score`, divided by `weight_sum` only when `weight_sum > 0`. -/
def blendScore (wc wi wu : α) (c : HCand α) : α :=
  if 0 < blendDen wc wi wu c then blendNum wc wi wu c / blendDen wc wi wu c
  else blendNum wc wi wu c

/-- The final-scoring loop of `HybridModel.recommend`: skip candidates in the
exclusion set, blend the rest. -/
def hybridBlend (wc wi wu : α) (excl : List ℤ) (cands : List (HCand α)) : List (Rec α) :=
  cands.filterMap (fun c =>
    if c.movieId ∈ excl then none else some ⟨c.movieId, blendScore wc wi wu c⟩)

/-- `HybridModel.recommend(user_id, n, exclude)`.  `contentRec` returns the
recommendations together with the exclusion set as the caller sees it after
the call (`recommend_for_user` mutates a non-empty set in place); the item and
user sub-models and the final filter then all see that same object.  Returns
the results and the final state of the caller's exclusion set. -/
def hybridRecommend (isFitted : Bool) (wc wi wu : α)
    (contentRec : ℕ → List ℤ → List (Rec α) × List ℤ)
    (itemRec : ℕ → List ℤ → List (Rec α)) (userRec : ℕ → List ℤ → List (Rec α))
    (n : ℕ) (excl : List ℤ) : List (Rec α) × List ℤ :=
  if !isFitted then ([], excl)
  else
    let cbPair := contentRec (n * 2) excl
    let excl1 := cbPair.2
    let ib := itemRec (n * 2) excl1
    let ub := userRec (n * 2) excl1
    let blended := hybridBlend wc wi wu excl1 (hybridCandidates cbPair.1 ib ub)
    ((sortDescBy (fun e : Rec α => e.score) blended).take n, excl1)

/-- `HybridModel.predict_rating`: weighted average of whichever sub-models
predict (the content model is only consulted when the rating history is
non-empty), clipped.  When all participating weights are zero the Python
computes `0/0 = NaN`; real division yields `0` there instead, C4 therefore
assumes positive weights. -/
def hybridPredict (isFitted : Bool) (wc wi wu : α) (ratedNonempty : Bool)
    (cbPred ibPred ubPred : Option α) : Option α :=
  if !isFitted then none
  else
    let preds :=
      (if ratedNonempty then (match cbPred with | some p => [(p, wc)] | none => []) else []) ++
      (match ibPred with | some p => [(p, wi)] | none => []) ++
      (match ubPred with | some p => [(p, wu)] | none => [])
    if preds.isEmpty then none
    else some (clip ((preds.map (fun q => q.1 * q.2)).sum / (preds.map (fun q => q.2)).sum))

/-- `HybridModel.get_similar_movies(movie_id, n)`: union of the content and
item similarity lists (each asked for `2n`), re-weighted over the sub-models
that scored each candidate, sorted descending, truncated to `n`. -/
def hybridGetSimilar (isFitted : Bool) (wc wi : α)
    (contentSims itemSims : ℕ → List (Rec α)) (n : ℕ) : List (Rec α) :=
  if !isFitted then []
  else
    let cb := contentSims (n * 2)
    let ib := itemSims (n * 2)
    let cands := addAll .i (addAll .c [] cb) ib
    let blended := cands.map (fun c => (⟨c.movieId, blendScore wc wi 0 c⟩ : Rec α))
    (sortDescBy (fun e : Rec α => e.score) blended).take n

end Hybrid

section SortLemmas

variable {α β : Type} [LinearOrder α] (key : β → α)

theorem sortDescBy_perm (l : List β) : sortDescBy key l ~ l :=
  List.perm_insertionSort _ l

theorem sortDescBy_length (l : List β) : (sortDescBy key l).length = l.length :=
  (sortDescBy_perm key l).length_eq

theorem sortDescBy_sorted (l : List β) :
    (sortDescBy key l).Sorted (keyGE key) :=
  List.sorted_insertionSort _ l

theorem sortDescBy_mem {l : List β} {x : β} : x ∈ sortDescBy key l ↔ x ∈ l :=
  (sortDescBy_perm key l).mem_iff

/-- Stability of the descending sort: for any key value `c`, the elements
whose key is `c` appear in the sorted list exactly in their original order. -/
theorem sortDescBy_filter_eq (l : List β) (c : α) :
    (sortDescBy key l).filter (fun b => key b = c) = l.filter (fun b => key b = c) := by
  have hmem : ∀ x ∈ l.filter (fun b => key b = c), key x = c := by
    intro x hx
    simpa using (List.mem_filter.mp hx).2
  have hsub : l.filter (fun b => key b = c) <+ sortDescBy key l := by
    apply List.sublist_insertionSort
    · apply List.pairwise_of_forall_mem_list
      intro a ha b hb
      unfold keyGE
      rw [hmem b hb, hmem a ha]
    · exact List.filter_sublist l
  have hsub2 : l.filter (fun b => key b = c) <+ (sortDescBy key l).filter (fun b => key b = c) := by
    have := hsub.filter (fun b => decide (key b = c))
    simpa using this
  have hperm : (sortDescBy key l).filter (fun b => key b = c) ~ l.filter (fun b => key b = c) :=
    (sortDescBy_perm key l).filter _
  exact (hsub2.eq_of_length hperm.length_eq.symm).symm

theorem argsortDesc_perm {γ : Type} [LinearOrderedField γ] (v : List γ) :
    argsortDesc v ~ List.range v.length :=
  sortDescBy_perm _ _

end SortLemmas

/-! ### Facts about `dotp`, `cosSim` and the similarity matrices -/

theorem dotp_nil_right (x : List ℝ) : dotp x [] = 0 := by
  cases x <;> simp [dotp]

theorem dotp_cons (a b : ℝ) (t u : List ℝ) :
    dotp (a :: t) (b :: u) = a * b + dotp t u := by
  simp [dotp]

theorem dotp_comm (x y : List ℝ) : dotp x y = dotp y x := by
  induction x generalizing y with
  | nil => cases y <;> simp [dotp]
  | cons a t ih =>
    cases y with
    | nil => simp [dotp]
    | cons b u => rw [dotp_cons, dotp_cons, ih, mul_comm]

theorem dotp_self_nonneg (x : List ℝ) : 0 ≤ dotp x x := by
  induction x with
  | nil => simp [dotp]
  | cons a t ih =>
    rw [dotp_cons]
    nlinarith [mul_self_nonneg a]

theorem dotp_eq_zero_of_self (x : List ℝ) (h : dotp x x = 0) (y : List ℝ) :
    dotp x y = 0 := by
  induction x generalizing y with
  | nil => cases y <;> simp [dotp]
  | cons a t ih =>
    rw [dotp_cons] at h
    have ha : a * a = 0 ∧ dotp t t = 0 :=
      (add_eq_zero_iff_of_nonneg (mul_self_nonneg a) (dotp_self_nonneg t)).mp h
    have ha0 : a = 0 := by
      have := ha.1
      nlinarith
    cases y with
    | nil => exact dotp_nil_right _
    | cons b u =>
      rw [dotp_cons, ha0, ih ha.2 u]
      ring

theorem dotp_eq_sum (x y : List ℝ) :
    dotp x y = ∑ i ∈ Finset.range (min x.length y.length), x.getD i 0 * y.getD i 0 := by
  induction x generalizing y with
  | nil => cases y <;> simp [dotp]
  | cons a t ih =>
    cases y with
    | nil => simp [dotp]
    | cons b u =>
      rw [dotp_cons, ih u]
      have hmin : min (a :: t).length (b :: u).length = min t.length u.length + 1 := by
        simp [Nat.succ_min_succ]
      rw [hmin, Finset.sum_range_succ']
      simp [add_comm]

/-- Discrete Cauchy–Schwarz for `dotp`. -/
theorem dotp_sq_le (x y : List ℝ) :
    (dotp x y) ^ 2 ≤ dotp x x * dotp y y := by
  set k := min x.length y.length with hk
  have hx : ∑ i ∈ Finset.range k, (x.getD i 0) ^ 2 ≤ dotp x x := by
    rw [dotp_eq_sum x x, min_self]
    simp only [← pow_two]
    exact Finset.sum_le_sum_of_subset_of_nonneg
      (Finset.range_subset.mpr (by omega)) (fun i _ _ => sq_nonneg _)
  have hy : ∑ i ∈ Finset.range k, (y.getD i 0) ^ 2 ≤ dotp y y := by
    rw [dotp_eq_sum y y, min_self]
    simp only [← pow_two]
    exact Finset.sum_le_sum_of_subset_of_nonneg
      (Finset.range_subset.mpr (by omega)) (fun i _ _ => sq_nonneg _)
  have hcs := Finset.sum_mul_sq_le_sq_mul_sq (Finset.range k)
    (fun i => x.getD i 0) (fun i => y.getD i 0)
  rw [dotp_eq_sum x y, ← hk]
  refine le_trans hcs ?_
  have h1 : (0 : ℝ) ≤ ∑ i ∈ Finset.range k, (x.getD i 0) ^ 2 :=
    Finset.sum_nonneg fun i _ => sq_nonneg _
  have h2 : (0 : ℝ) ≤ ∑ i ∈ Finset.range k, (y.getD i 0) ^ 2 :=
    Finset.sum_nonneg fun i _ => sq_nonneg _
  exact mul_le_mul hx hy h2 (le_trans h1 hx)

theorem sknorm_of_ne_zero {x : List ℝ} (h : dotp x x ≠ 0) :
    sknorm x = Real.sqrt (dotp x x) := by
  rw [sknorm, if_neg]
  rw [Real.sqrt_eq_zero (dotp_self_nonneg x)]
  exact h

theorem sknorm_pos (x : List ℝ) : 0 < sknorm x := by
  rw [sknorm]
  split
  · norm_num
  · rename_i h
    rcases lt_or_eq_of_le (Real.sqrt_nonneg (dotp x x)) with h' | h'
    · exact h'
    · exact absurd h'.symm h

theorem cosSim_comm (x y : List ℝ) : cosSim x y = cosSim y x := by
  rw [cosSim, cosSim, dotp_comm, mul_comm]

theorem abs_cosSim_le_one (x y : List ℝ) : |cosSim x y| ≤ 1 := by
  by_cases hx : dotp x x = 0
  · rw [cosSim, dotp_eq_zero_of_self x hx y]
    simp
  by_cases hy : dotp y y = 0
  · rw [cosSim, dotp_comm, dotp_eq_zero_of_self y hy x]
    simp
  rw [cosSim, sknorm_of_ne_zero hx, sknorm_of_ne_zero hy, abs_div]
  have hden : 0 < Real.sqrt (dotp x x) * Real.sqrt (dotp y y) := by
    apply mul_pos <;>
      exact Real.sqrt_pos.mpr (lt_of_le_of_ne (dotp_self_nonneg _) (Ne.symm (by assumption)))
  rw [div_le_one (lt_of_lt_of_le hden (le_abs_self _))]
  calc |dotp x y| = Real.sqrt ((dotp x y) ^ 2) := (Real.sqrt_sq_eq_abs _).symm
    _ ≤ Real.sqrt (dotp x x * dotp y y) := Real.sqrt_le_sqrt (dotp_sq_le x y)
    _ = Real.sqrt (dotp x x) * Real.sqrt (dotp y y) := Real.sqrt_mul (dotp_self_nonneg x) _
    _ ≤ |Real.sqrt (dotp x x) * Real.sqrt (dotp y y)| := le_abs_self _

theorem cosSim_self_of_ne_zero {x : List ℝ} (h : dotp x x ≠ 0) : cosSim x x = 1 := by
  rw [cosSim, sknorm_of_ne_zero h, Real.mul_self_sqrt (dotp_self_nonneg x)]
  exact div_self h

theorem getD_map_of_lt {α β : Type} (f : α → β) (l : List α) {i : ℕ}
    (h : i < l.length) (d : β) (d' : α) : (l.map f).getD i d = f (l.getD i d') := by
  rw [List.getD_eq_getElem _ _ (by simpa using h), List.getD_eq_getElem _ _ h,
    List.getElem_map]

theorem simPairs_length (rows : List (List ℝ)) : (simPairs rows).length = rows.length := by
  simp [simPairs]

theorem simPairs_row_length (rows : List (List ℝ)) {i : ℕ} (h : i < rows.length) :
    ((simPairs rows).getD i []).length = rows.length := by
  rw [simPairs, getD_map_of_lt _ _ h [] []]
  simp

theorem mget_simPairs (rows : List (List ℝ)) {i j : ℕ}
    (hi : i < rows.length) (hj : j < rows.length) :
    mget (simPairs rows) i j = cosSim (rows.getD i []) (rows.getD j []) := by
  rw [mget, simPairs, getD_map_of_lt _ _ hi [] [], getD_map_of_lt _ _ hj 0 []]

theorem mget_out_left {α : Type} [Zero α] (m : List (List α)) {i : ℕ} (j : ℕ)
    (h : m.length ≤ i) : mget m i j = 0 := by
  rw [mget, List.getD_eq_default _ _ h]
  simp

theorem mget_out_right {α : Type} [Zero α] (m : List (List α)) (i : ℕ) {j : ℕ}
    (h : (m.getD i []).length ≤ j) : mget m i j = 0 :=
  List.getD_eq_default _ _ h

theorem fillDiag0_length (m : List (List ℝ)) : (fillDiag0 m).length = m.length := by
  simp [fillDiag0]

theorem fillDiag0_row_length (m : List (List ℝ)) {i : ℕ} (h : i < m.length) :
    ((fillDiag0 m).getD i []).length = (m.getD i []).length := by
  rw [fillDiag0, List.getD_eq_getElem _ _ (by simpa using h), List.getElem_mapIdx]
  rw [List.getD_eq_getElem _ _ h]
  simp

theorem getD_mapIdx_of_lt {α β : Type} (f : ℕ → α → β) (l : List α) {i : ℕ}
    (h : i < l.length) (d : β) (d' : α) :
    (List.mapIdx f l).getD i d = f i (l.getD i d') := by
  rw [List.getD_eq_getElem _ _ (by simpa using h), List.getD_eq_getElem _ _ h]
  simp [List.getElem_mapIdx]

theorem mget_fillDiag0 (m : List (List ℝ)) (i j : ℕ) :
    mget (fillDiag0 m) i j = if i = j then 0 else mget m i j := by
  by_cases hi : i < m.length
  · by_cases hj : j < (m.getD i []).length
    · rw [mget, fillDiag0, getD_mapIdx_of_lt _ _ hi [] [], getD_mapIdx_of_lt _ _ hj 0 0]
      rfl
    · have h1 : ((fillDiag0 m).getD i []).length ≤ j := by
        rw [fillDiag0_row_length m hi]
        omega
      rw [mget_out_right _ _ h1, mget_out_right _ _ (by omega)]
      simp
  · have h1 : (fillDiag0 m).length ≤ i := by
      rw [fillDiag0_length]
      omega
    rw [mget_out_left _ _ h1, mget_out_left _ _ (by omega)]
    simp

/-- `HybridModel.recommend`'s wiring of the content sub-model: the call
`content_model.recommend_for_user(user_id, user_rated_movies, n*2, exclude)`
as a sub-model function (on a fitted content model the error branch cannot
occur), returning the recommendations and the caller-visible exclusion set. -/
def contentAsSub {α : Type} [LinearOrderedField α] (st : ContentState α)
    (rated : List (ℤ × α)) (junk : ℕ → α) : ℕ → List ℤ → List (Rec α) × List ℤ :=
  fun n2 ex =>
    match contentRecommendForUser st rated n2 ex junk with
    | .ok p => p
    | .error _ => ([], ex)

/-- The score slot a sub-model recommendation list leaves behind for movie
`m`: the last occurrence of the id wins (repeated dict assignment).  Stated
via `reverse.find?` for proof convenience; the fold characterisation is proved
below. -/
def lastScore {α : Type} (l : List (Rec α)) (m : ℤ) : Option α :=
  (l.reverse.find? (fun e => e.movieId = m)).map (fun e => e.score)

/-- The first candidate entry with the given movie id (for the candidate
lists built by `hybridCandidates` the ids are unique). -/
def candFind {α : Type} (l : List (HCand α)) (m : ℤ) : Option (HCand α) :=
  l.find? (fun c => c.movieId = m)

/-! ### Small fitted states over `ℚ`

Used to witness the general query-layer theorems on executable inputs.
`cqs` is a two-movie content state with orthogonal unit feature rows (its
similarity matrix is the identity); `iqs`/`uqs` mirror the shape produced by
`fit` on the tiny datasets of the concrete theorems below. -/

def cqs : ContentState ℚ :=
  { movies := [⟨10, 4, 1⟩, ⟨20, 3, 1⟩]
    tfidf := [[1, 0], [0, 1]]
    simMat := [[1, 0], [0, 1]]
    movieIdToIdx := [(10, 0), (20, 1)]
    idxToMovieId := [(0, 10), (1, 20)]
    isFitted := true }

def iqs : ItemState ℚ :=
  { k := 20, minRatings := 1, moviesDf := none
    userIds := [1, 2], movieIds := [10, 11]
    matrix := [[5, 1], [1, 5]]
    sim := [[0, -1], [-1, 0]]
    userToIdx := [(2, 1), (1, 0)], idxToUser := [(1, 2), (0, 1)]
    movieToIdx := [(11, 1), (10, 0)], idxToMovie := [(1, 11), (0, 10)]
    isFitted := true }

def uqs : UserState ℚ :=
  { k := 20, minCommon := 3, moviesDf := none
    userIds := [1, 2], movieIds := [10, 30]
    matrix := [[5, 0], [0, 1]]
    userMeans := [5, 1]
    sim := [[0, 1/2], [1/2, 0]]
    userToIdx := [(2, 1), (1, 0)], idxToUser := [(1, 2), (0, 1)]
    movieToIdx := [(30, 1), (10, 0)], idxToMovie := [(1, 30), (0, 10)]
    isFitted := true }

/-! ### C1 — not-fitted behaviour of the public query methods -/

/-- C1 (counterexample): `ItemBasedModel.get_similar_items` on a never-fitted
model silently returns an ordinary empty list — it does not raise or otherwise
report a not-fitted condition, contradicting the claim that every public query
method does. -/
theorem c1_counterexample :
    itemGetSimilarItems (itemInit 20 5 : ItemState ℚ) 1 10 = [] := by
  simp [itemGetSimilarItems, itemInit]

/-- C1 (amended): only the content model's `get_similar_movies` and
`recommend_for_user` raise a not-fitted error; `ContentBasedModel.predict_rating`
and every query method of the item-based, user-based and hybrid models silently
return `None` or an empty result when called before `fit`. -/
theorem c1_amended {α : Type} [LinearOrderedField α]
    (cst : ContentState α) (ist : ItemState α) (ust : UserState α)
    (hc : cst.isFitted = false) (hi : ist.isFitted = false) (hu : ust.isFitted = false)
    (m u : ℤ) (n : ℕ) (excl : List ℤ) (rated : List (ℤ × α)) (junk : ℕ → α)
    (wc wi wu : α) (cr : ℕ → List ℤ → List (Rec α) × List ℤ)
    (ir ur : ℕ → List ℤ → List (Rec α)) (rn : Bool) (p1 p2 p3 : Option α)
    (cs ds : ℕ → List (Rec α)) :
    contentGetSimilar cst m n excl = .error "Model not fitted. Call fit() first." ∧
    contentRecommendForUser cst rated n excl junk =
      .error "Model not fitted. Call fit() first." ∧
    contentPredict cst u m rated = none ∧
    itemGetSimilarItems ist m n = [] ∧
    itemPredict ist u m = none ∧
    itemRecommend ist u n excl = [] ∧
    userGetSimilarUsers ust u n = [] ∧
    userPredict ust u m = none ∧
    userRecommend ust u n excl = [] ∧
    hybridRecommend false wc wi wu cr ir ur n excl = ([], excl) ∧
    hybridPredict false wc wi wu rn p1 p2 p3 = none ∧
    hybridGetSimilar false wc wi cs ds n = [] := by
  refine ⟨?_, ?_, ?_, ?_, ?_, ?_, ?_, ?_, ?_, ?_, ?_, ?_⟩ <;>
    simp [contentGetSimilar, contentRecommendForUser, contentPredict,
      itemGetSimilarItems, itemPredict, itemRecommend, userGetSimilarUsers,
      userPredict, userRecommend, hybridRecommend, hybridPredict,
      hybridGetSimilar, hc, hi, hu]

/-- C1 (witness): the amended statement instantiated on freshly constructed
(unfitted) models over `ℚ`. -/
theorem c1_amended_witness :
    ((contentInit : ContentState ℚ).isFitted = false ∧
      (itemInit 20 5 : ItemState ℚ).isFitted = false ∧
      (userInit 20 3 : UserState ℚ).isFitted = false) ∧
    (contentGetSimilar (contentInit : ContentState ℚ) 1 5 [] =
      .error "Model not fitted. Call fit() first." ∧
    contentRecommendForUser (contentInit : ContentState ℚ) [(1, 4)] 5 [] (fun _ => 0) =
      .error "Model not fitted. Call fit() first." ∧
    contentPredict (contentInit : ContentState ℚ) 7 1 [(1, 4)] = none ∧
    itemGetSimilarItems (itemInit 20 5 : ItemState ℚ) 1 5 = [] ∧
    itemPredict (itemInit 20 5 : ItemState ℚ) 7 1 = none ∧
    itemRecommend (itemInit 20 5 : ItemState ℚ) 7 5 [] = [] ∧
    userGetSimilarUsers (userInit 20 3 : UserState ℚ) 7 5 = [] ∧
    userPredict (userInit 20 3 : UserState ℚ) 7 1 = none ∧
    userRecommend (userInit 20 3 : UserState ℚ) 7 5 [] = [] ∧
    hybridRecommend false (3 : ℚ) 3 4 (fun _ e => ([], e)) (fun _ _ => [])
      (fun _ _ => []) 5 [] = ([], []) ∧
    hybridPredict false (3 : ℚ) 3 4 true none none none = none ∧
    hybridGetSimilar false (3 : ℚ) 3 (fun _ => []) (fun _ => []) 5 = []) :=
  ⟨⟨rfl, rfl, rfl⟩,
    c1_amended contentInit (itemInit 20 5) (userInit 20 3) rfl rfl rfl 1 7 5 []
      [(1, 4)] (fun _ => 0) 3 3 4 (fun _ e => ([], e)) (fun _ _ => []) (fun _ _ => [])
      true none none none (fun _ => []) (fun _ => [])⟩

/-! ### C2 — shape and value invariants of the similarity matrices -/

theorem mget_simPairs_symm (rows : List (List ℝ)) (i j : ℕ) :
    mget (simPairs rows) i j = mget (simPairs rows) j i := by
  by_cases hi : i < rows.length
  · by_cases hj : j < rows.length
    · rw [mget_simPairs rows hi hj, mget_simPairs rows hj hi, cosSim_comm]
    · rw [mget_out_right _ _ (by rw [simPairs_row_length rows hi]; omega),
        mget_out_left _ _ (by rw [simPairs_length]; omega)]
  · by_cases hj : j < rows.length
    · rw [mget_out_left _ _ (by rw [simPairs_length]; omega),
        mget_out_right _ _ (by rw [simPairs_row_length rows hj]; omega)]
    · rw [mget_out_left _ _ (by rw [simPairs_length]; omega),
        mget_out_left _ _ (by rw [simPairs_length]; omega)]

theorem abs_mget_simPairs_le_one (rows : List (List ℝ)) (i j : ℕ) :
    |mget (simPairs rows) i j| ≤ 1 := by
  by_cases hi : i < rows.length
  · by_cases hj : j < rows.length
    · rw [mget_simPairs rows hi hj]
      exact abs_cosSim_le_one _ _
    · rw [mget_out_right _ _ (by rw [simPairs_row_length rows hi]; omega)]
      norm_num
  · rw [mget_out_left _ _ (by rw [simPairs_length]; omega)]
    norm_num

theorem mget_fillDiag0_symm (m : List (List ℝ)) (i j : ℕ)
    (h : mget m i j = mget m j i) :
    mget (fillDiag0 m) i j = mget (fillDiag0 m) j i := by
  rw [mget_fillDiag0, mget_fillDiag0, h]
  by_cases hij : i = j
  · simp [hij]
  · rw [if_neg hij, if_neg (fun hji => hij hji.symm)]

/-- C2 (counterexample): the content model's similarity matrix does *not*
have a zero diagonal — `ContentBasedModel.fit` never zeroes it, so the
self-similarity of a movie with a nonzero feature row is `1`.  Input: a
catalog of one movie with TF-IDF row `[1]`. -/
theorem c2_counterexample :
    mget (contentSimMat [[(1 : ℝ)]]) 0 0 = 1 ∧
    mget (contentSimMat [[(1 : ℝ)]]) 0 0 ≠ 0 := by
  have hd : dotp [(1 : ℝ)] [1] = 1 := by
    norm_num [dotp]
  have h : mget (contentSimMat [[(1 : ℝ)]]) 0 0 = cosSim [1] [1] :=
    mget_simPairs [[(1 : ℝ)]] (by norm_num) (by norm_num)
  rw [h, cosSim_self_of_ne_zero (by rw [hd]; norm_num)]
  norm_num

/-- C2 (amended): every fitted similarity matrix is square, symmetric, and
has entries in `[-1, 1]`; the item-item and user-user matrices additionally
have a zero diagonal, while the content matrix's diagonal entry is `1` (not
`0`) at every movie whose feature row is nonzero. -/
theorem c2_amended (feats rows urows : List (List ℝ)) (i j : ℕ) :
    ((contentSimMat feats).length = feats.length ∧
      (i < feats.length → ((contentSimMat feats).getD i []).length = feats.length)) ∧
    ((itemSimMat rows).length = rows.length ∧
      (i < rows.length → ((itemSimMat rows).getD i []).length = rows.length)) ∧
    ((userSimMat urows).length = urows.length ∧
      (i < urows.length → ((userSimMat urows).getD i []).length = urows.length)) ∧
    mget (contentSimMat feats) i j = mget (contentSimMat feats) j i ∧
    mget (itemSimMat rows) i j = mget (itemSimMat rows) j i ∧
    mget (userSimMat urows) i j = mget (userSimMat urows) j i ∧
    |mget (contentSimMat feats) i j| ≤ 1 ∧
    |mget (itemSimMat rows) i j| ≤ 1 ∧
    |mget (userSimMat urows) i j| ≤ 1 ∧
    mget (itemSimMat rows) i i = 0 ∧
    mget (userSimMat urows) i i = 0 ∧
    (i < feats.length → dotp (feats.getD i []) (feats.getD i []) ≠ 0 →
      mget (contentSimMat feats) i i = 1) := by
  refine ⟨⟨simPairs_length feats, fun h => simPairs_row_length feats h⟩, ?_, ?_,
    mget_simPairs_symm feats i j, ?_, ?_, abs_mget_simPairs_le_one feats i j, ?_, ?_,
    ?_, ?_, ?_⟩
  · constructor
    · rw [itemSimMat, fillDiag0_length, simPairs_length, List.length_map]
    · intro h
      rw [itemSimMat, fillDiag0_row_length _ (by
          rw [simPairs_length, List.length_map]; omega),
        simPairs_row_length _ (by rw [List.length_map]; omega), List.length_map]
  · constructor
    · rw [userSimMat, fillDiag0_length, simPairs_length, List.length_map]
    · intro h
      rw [userSimMat, fillDiag0_row_length _ (by
          rw [simPairs_length, List.length_map]; omega),
        simPairs_row_length _ (by rw [List.length_map]; omega), List.length_map]
  · exact mget_fillDiag0_symm _ i j (mget_simPairs_symm _ i j)
  · exact mget_fillDiag0_symm _ i j (mget_simPairs_symm _ i j)
  · rw [itemSimMat, mget_fillDiag0]
    by_cases hij : i = j
    · simp [hij]
    · rw [if_neg hij]
      exact abs_mget_simPairs_le_one _ i j
  · rw [userSimMat, mget_fillDiag0]
    by_cases hij : i = j
    · simp [hij]
    · rw [if_neg hij]
      exact abs_mget_simPairs_le_one _ i j
  · rw [itemSimMat, mget_fillDiag0, if_pos rfl]
  · rw [userSimMat, mget_fillDiag0, if_pos rfl]
  · intro h hne
    rw [contentSimMat, mget_simPairs feats h h, cosSim_self_of_ne_zero hne]

/-- C2 (witness): the amended statement at the one-movie catalog with feature
row `[1]` (content) and one-user/one-item rating matrices. -/
theorem c2_amended_witness :
    ((0 : ℕ) < 1 ∧ dotp ([[(1 : ℝ)]].getD 0 []) ([[(1 : ℝ)]].getD 0 []) ≠ 0) ∧
    mget (contentSimMat [[(1 : ℝ)]]) 0 0 = 1 ∧
    mget (itemSimMat [[(5 : ℝ)]]) 0 0 = 0 ∧
    mget (userSimMat [[(5 : ℝ)]]) 0 0 = 0 := by
  have h := c2_amended [[(1 : ℝ)]] [[(5 : ℝ)]] [[(5 : ℝ)]] 0 0
  have hd : dotp ([[(1 : ℝ)]].getD 0 []) ([[(1 : ℝ)]].getD 0 []) ≠ 0 := by
    norm_num [dotp]
  exact ⟨⟨Nat.zero_lt_one, hd⟩,
    h.2.2.2.2.2.2.2.2.2.2.2 Nat.zero_lt_one hd,
    h.2.2.2.2.2.2.2.2.2.1,
    h.2.2.2.2.2.2.2.2.2.2.1⟩

/-! ### C3 — `get_similar` never returns the query movie, at most `n` items -/

theorem argsortDesc_length {α : Type} [LinearOrderedField α] (v : List α) :
    (argsortDesc v).length = v.length := by
  rw [argsortDesc, sortDescBy_length, List.length_range]

/-- C3 (amended): the content model's `get_similar_movies` satisfies the full
property — the result never contains the query movie, has at most `n` entries,
and its length is exactly `min n`{number of non-excluded other movies}, so a
small catalog returns everything available.  The item model's
`get_similar_items` returns exactly `min n`{catalog size} entries but performs
no self-exclusion, so it can return the query movie itself (see the
counterexample). -/
theorem c3_amended {α : Type} [LinearOrderedField α] (cst : ContentState α)
    (ist : ItemState α) (m : ℤ) (n : ℕ) (excl : List ℤ) (l : List (Rec α)) (idx : ℕ) :
    (contentGetSimilar cst m n excl = .ok l →
      (∀ e ∈ l, e.movieId ≠ m ∧ e.movieId ∉ excl) ∧ l.length ≤ n) ∧
    (alookup m cst.movieIdToIdx = some idx →
      contentGetSimilar cst m n excl = .ok l →
      l.length = min n (((List.range (cst.simMat.getD idx []).length).filter (fun j =>
        decide ((alookup j cst.idxToMovieId).getD 0 ≠ m ∧
          (alookup j cst.idxToMovieId).getD 0 ∉ excl))).length)) ∧
    (itemGetSimilarItems ist m n).length ≤ n ∧
    (ist.isFitted = true → alookup m ist.movieToIdx = some idx →
      (itemGetSimilarItems ist m n).length = min n (ist.sim.getD idx []).length) := by
  by_cases hf : cst.isFitted = true
  case neg =>
    refine ⟨?_, ?_, ?_, ?_⟩
    · intro h
      rw [contentGetSimilar] at h
      simp [Bool.eq_false_iff.mpr (fun ht => hf ht)] at h
    · intro _ h
      rw [contentGetSimilar] at h
      simp [Bool.eq_false_iff.mpr (fun ht => hf ht)] at h
    · by_cases hfi : ist.isFitted = true
      · rw [itemGetSimilarItems, hfi]
        cases halo : alookup m ist.movieToIdx with
        | none => simp
        | some idx2 =>
          simp [List.length_take]
      · rw [itemGetSimilarItems, Bool.eq_false_iff.mpr (fun ht => hfi ht)]
        simp
    · intro hfi halo
      rw [itemGetSimilarItems, hfi]
      simp only [Bool.not_true, Bool.false_eq_true, if_false]
      rw [halo]
      simp only [List.length_map, List.length_take, argsortDesc_length]
  case pos =>
    have hstep : ∀ idx2, alookup m cst.movieIdToIdx = some idx2 →
        contentGetSimilar cst m n excl = .ok
          ((((argsortDesc (cst.simMat.getD idx2 [])).filter (fun j =>
            decide ((alookup j cst.idxToMovieId).getD 0 ≠ m ∧
              (alookup j cst.idxToMovieId).getD 0 ∉ excl))).take n).map
            (fun j => ⟨(alookup j cst.idxToMovieId).getD 0,
              (cst.simMat.getD idx2 []).getD j 0⟩)) := by
      intro idx2 halo
      rw [contentGetSimilar, hf]
      simp only [Bool.not_true, Bool.false_eq_true, if_false]
      rw [halo]
    refine ⟨?_, ?_, ?_, ?_⟩
    · intro h
      cases halo : alookup m cst.movieIdToIdx with
      | none =>
        rw [contentGetSimilar, hf] at h
        simp only [Bool.not_true, Bool.false_eq_true, if_false] at h
        rw [halo] at h
        cases h
        simp
      | some idx2 =>
        rw [hstep idx2 halo] at h
        cases h
        constructor
        · intro e he
          obtain ⟨j, hj, hje⟩ := List.mem_map.mp he
          have hj2 := (List.take_sublist n _).mem hj
          have hp := (List.mem_filter.mp hj2).2
          simp only [decide_eq_true_eq] at hp
          rw [← hje]
          exact hp
        · simp [List.length_take]
    · intro halo h
      rw [hstep idx halo] at h
      cases h
      simp only [List.length_map, List.length_take]
      congr 1
      exact (List.Perm.filter _ (argsortDesc_perm _)).length_eq
    · by_cases hfi : ist.isFitted = true
      · rw [itemGetSimilarItems, hfi]
        cases halo : alookup m ist.movieToIdx with
        | none => simp
        | some idx2 =>
          simp [List.length_take]
      · rw [itemGetSimilarItems, Bool.eq_false_iff.mpr (fun ht => hfi ht)]
        simp
    · intro hfi halo
      rw [itemGetSimilarItems, hfi]
      simp only [Bool.not_true, Bool.false_eq_true, if_false]
      rw [halo]
      simp only [List.length_map, List.length_take, argsortDesc_length]

/-- Evaluate a cosine similarity whose two rows have the same squared norm. -/
theorem cosSim_eval_eq (x y : List ℝ) (a c : ℝ) (hx : dotp x x = a) (hy : dotp y y = a)
    (hxy : dotp x y = c) (ha : 0 < a) : cosSim x y = c / a := by
  rw [cosSim, sknorm_of_ne_zero (by rw [hx]; exact ne_of_gt ha),
    sknorm_of_ne_zero (by rw [hy]; exact ne_of_gt ha), hx, hy, hxy,
    Real.mul_self_sqrt ha.le]

/-- The item similarity matrix of the C3/C7-style concrete dataset: two items
rated oppositely by two users are perfectly anti-similar after centering. -/
theorem itemSimMat_eval :
    itemSimMat [[(5 : ℝ), 1], [1, 5]] = [[0, -1], [-1, 0]] := by
  have hc1 : centerItem [(5 : ℝ), 1] = [2, -2] := by
    norm_num [centerItem, itemMean, countNZ, List.filter_cons]
  have hc2 : centerItem [(1 : ℝ), 5] = [-2, 2] := by
    norm_num [centerItem, itemMean, countNZ, List.filter_cons]
  have hxx : cosSim [(2 : ℝ), -2] [2, -2] = 1 :=
    cosSim_self_of_ne_zero (by norm_num [dotp])
  have hyy : cosSim [(-2 : ℝ), 2] [-2, 2] = 1 :=
    cosSim_self_of_ne_zero (by norm_num [dotp])
  have hxy : cosSim [(2 : ℝ), -2] [-2, 2] = -1 := by
    rw [cosSim_eval_eq _ _ 8 (-8) (by norm_num [dotp]) (by norm_num [dotp])
      (by norm_num [dotp]) (by norm_num)]
    norm_num
  have hyx : cosSim [(-2 : ℝ), 2] [2, -2] = -1 := by
    rw [cosSim_comm]
    exact hxy
  have hmap : [[(5 : ℝ), 1], [1, 5]].map centerItem = [[2, -2], [-2, 2]] := by
    rw [List.map_cons, List.map_cons, List.map_nil, hc1, hc2]
  rw [itemSimMat, hmap]
  have hsp : simPairs [[(2 : ℝ), -2], [-2, 2]] = [[1, -1], [-1, 1]] := by
    simp [simPairs, hxx, hxy, hyx, hyy]
  rw [hsp]
  norm_num [fillDiag0]

/-- C3 (counterexample): on the item model fitted (with `min_ratings=1`) on
ratings {(1,10,5), (2,10,1), (1,11,1), (2,11,5)}, `get_similar_items(10, 1)`
returns the query movie 10 itself: the only other item has similarity `-1`,
which ranks below the zeroed self-similarity `0`, and the code never skips the
query item. -/
theorem c3_counterexample :
    itemGetSimilarItems (itemFit (itemInit 20 1)
      [(1, 10, 5), (2, 10, 1), (1, 11, 1), (2, 11, 5)] none) 10 1 =
      [⟨10, 0⟩] := by
  have hb : (itemFit (itemInit 20 1)
      [(1, 10, 5), (2, 10, 1), (1, 11, 1), (2, 11, 5)] none).sim =
      itemSimMat (buildItemUser [1, 2] [10, 11]
        [(1, 10, 5), (2, 10, 1), (1, 11, 1), (2, 11, 5)]) := rfl
  have hbuild : buildItemUser [1, 2] [10, 11]
      [((1 : ℤ), (10 : ℤ), (5 : ℝ)), (2, 10, 1), (1, 11, 1), (2, 11, 5)] =
      [[(5 : ℝ), 1], [1, 5]] := by
    norm_num [buildItemUser, cellSum, List.filter_cons]
  have hsim : (itemFit (itemInit 20 1)
      [(1, 10, 5), (2, 10, 1), (1, 11, 1), (2, 11, 5)] none).sim =
      [[(0 : ℝ), -1], [-1, 0]] := by
    rw [hb, hbuild, itemSimMat_eval]
  have hdict : (itemFit (itemInit 20 1)
      [(1, 10, 5), (2, 10, 1), (1, 11, 1), (2, 11, 5)] none).movieToIdx =
      [(11, 1), (10, 0)] := rfl
  have hidx : (itemFit (itemInit 20 1)
      [(1, 10, 5), (2, 10, 1), (1, 11, 1), (2, 11, 5)] none).idxToMovie =
      [(1, 11), (0, 10)] := rfl
  have hfit : (itemFit (itemInit 20 1)
      [(1, 10, 5), (2, 10, 1), (1, 11, 1), (2, 11, 5)] none).isFitted = true := rfl
  rw [itemGetSimilarItems, hfit, hdict, hsim, hidx]
  norm_num [alookup, argsortDesc, sortDescBy, keyGE, List.insertionSort,
    List.orderedInsert]

/-- C3 (witness): the amended statement on the executable `ℚ` states. -/
theorem c3_amended_witness :
    (alookup (10 : ℤ) cqs.movieIdToIdx = some 0 ∧
      contentGetSimilar cqs 10 5 [] = .ok [⟨20, 0⟩] ∧
      iqs.isFitted = true ∧ alookup (10 : ℤ) iqs.movieToIdx = some 0) ∧
    ((∀ e ∈ [(⟨20, 0⟩ : Rec ℚ)], e.movieId ≠ 10 ∧ e.movieId ∉ ([] : List ℤ)) ∧
      ([(⟨20, 0⟩ : Rec ℚ)].length ≤ 5) ∧
      [(⟨20, 0⟩ : Rec ℚ)].length = min 5 (((List.range (cqs.simMat.getD 0 []).length).filter
        (fun j => decide ((alookup j cqs.idxToMovieId).getD 0 ≠ 10 ∧
          (alookup j cqs.idxToMovieId).getD 0 ∉ ([] : List ℤ)))).length) ∧
      (itemGetSimilarItems iqs 10 3).length ≤ 3 ∧
      (itemGetSimilarItems iqs 10 3).length = min 3 (iqs.sim.getD 0 []).length) := by
  have h1 : alookup (10 : ℤ) cqs.movieIdToIdx = some 0 := by decide
  have h2 : contentGetSimilar cqs 10 5 [] = .ok [⟨20, 0⟩] := rfl
  have h3 : alookup (10 : ℤ) iqs.movieToIdx = some 0 := by decide
  have h := c3_amended cqs iqs 10 5 [] [⟨20, 0⟩] 0
  have h4 := c3_amended cqs iqs 10 3 [] [⟨20, 0⟩] 0
  exact ⟨⟨h1, h2, rfl, h3⟩, (h.1 h2).1, (h.1 h2).2, h.2.1 h1 h2,
    h4.2.2.1, h4.2.2.2 rfl h3⟩

/-! ### C4 — predictions, when defined, lie in `[0.5, 5.0]` -/

theorem clip_mem {α : Type} [LinearOrderedField α] (x : α) :
    1/2 ≤ clip x ∧ clip x ≤ 5 := by
  constructor
  · rw [clip]
    apply le_min _ (by norm_num)
    exact le_max_right _ _
  · exact min_le_right _ _

theorem sum_weighted_lower {α : Type} [LinearOrderedField α] (l : List (α × α)) (lo : α)
    (hpos : ∀ p ∈ l, 0 < p.1) (hlo : ∀ p ∈ l, lo ≤ p.2) :
    lo * (l.map (fun p => p.1)).sum ≤ (l.map (fun p => p.1 * p.2)).sum := by
  induction l with
  | nil => simp
  | cons p t ih =>
    have hp := hpos p (List.mem_cons_self p t)
    have hl := hlo p (List.mem_cons_self p t)
    have iht := ih (fun q hq => hpos q (List.mem_cons_of_mem p hq))
      (fun q hq => hlo q (List.mem_cons_of_mem p hq))
    simp only [List.map_cons, List.sum_cons]
    calc lo * (p.1 + (t.map (fun p => p.1)).sum)
        = p.1 * lo + lo * (t.map (fun p => p.1)).sum := by ring
      _ ≤ p.1 * p.2 + (t.map (fun p => p.1 * p.2)).sum :=
          add_le_add (mul_le_mul_of_nonneg_left hl hp.le) iht

theorem sum_weighted_upper {α : Type} [LinearOrderedField α] (l : List (α × α)) (hi : α)
    (hpos : ∀ p ∈ l, 0 < p.1) (hhi : ∀ p ∈ l, p.2 ≤ hi) :
    (l.map (fun p => p.1 * p.2)).sum ≤ hi * (l.map (fun p => p.1)).sum := by
  induction l with
  | nil => simp
  | cons p t ih =>
    have hp := hpos p (List.mem_cons_self p t)
    have hl := hhi p (List.mem_cons_self p t)
    have iht := ih (fun q hq => hpos q (List.mem_cons_of_mem p hq))
      (fun q hq => hhi q (List.mem_cons_of_mem p hq))
    simp only [List.map_cons, List.sum_cons]
    calc p.1 * p.2 + (t.map (fun p => p.1 * p.2)).sum
        ≤ p.1 * hi + hi * (t.map (fun p => p.1)).sum :=
          add_le_add (mul_le_mul_of_nonneg_left hl hp.le) iht
      _ = hi * (p.1 + (t.map (fun p => p.1)).sum) := by ring

/-- A positively weighted average of values in `[lo, hi]` stays in `[lo, hi]`. -/
theorem wavg_mem {α : Type} [LinearOrderedField α] (l : List (α × α)) (lo hi : α)
    (hpos : ∀ p ∈ l, 0 < p.1) (hr : ∀ p ∈ l, lo ≤ p.2 ∧ p.2 ≤ hi)
    (hs : 0 < (l.map (fun p => p.1)).sum) :
    lo ≤ (l.map (fun p => p.1 * p.2)).sum / (l.map (fun p => p.1)).sum ∧
    (l.map (fun p => p.1 * p.2)).sum / (l.map (fun p => p.1)).sum ≤ hi := by
  constructor
  · rw [le_div_iff₀ hs]
    exact sum_weighted_lower l lo hpos (fun p hp => (hr p hp).1)
  · rw [div_le_iff₀ hs]
    exact sum_weighted_upper l hi hpos (fun p hp => (hr p hp).2)

theorem countPos_cons (r : ℝ) (t : List ℝ) :
    countPos (r :: t) = if 0 < r then countPos t + 1 else countPos t := by
  rw [countPos, List.filter_cons]
  split
  · rename_i h
    rw [if_pos (of_decide_eq_true h)]
    simp [countPos]
  · rename_i h
    rw [if_neg (fun hp => h (decide_eq_true hp))]
    rfl

theorem row_sum_bounds (v : List ℝ) (hv : ∀ r ∈ v, r = 0 ∨ (1/2 ≤ r ∧ r ≤ 5)) :
    (countPos v : ℝ) * (1/2) ≤ v.sum ∧ v.sum ≤ (countPos v : ℝ) * 5 := by
  induction v with
  | nil => simp [countPos]
  | cons r t ih =>
    have hr := hv r (List.mem_cons_self r t)
    have iht := ih (fun q hq => hv q (List.mem_cons_of_mem r hq))
    rw [countPos_cons, List.sum_cons]
    rcases hr with h0 | hin
    · rw [h0, if_neg (lt_irrefl 0)]
      constructor <;> linarith [iht.1, iht.2]
    · rw [if_pos (by linarith [hin.1])]
      push_cast
      constructor <;> [linarith [iht.1, hin.1]; linarith [iht.2, hin.2]]

theorem userMean_mem (v : List ℝ) (hv : ∀ r ∈ v, r = 0 ∨ (1/2 ≤ r ∧ r ≤ 5)) :
    1/2 ≤ userMean v ∧ userMean v ≤ 5 := by
  rw [userMean]
  by_cases hc : countPos v = 0
  · rw [if_pos hc]
    norm_num
  · rw [if_neg hc]
    have hcpos : (0 : ℝ) < (countPos v : ℝ) := by
      exact_mod_cast Nat.pos_of_ne_zero hc
    have hb := row_sum_bounds v hv
    constructor
    · rw [le_div_iff₀ hcpos]
      linarith [hb.1]
    · rw [div_le_iff₀ hcpos]
      linarith [hb.2]

theorem alookup_mem {κ β : Type} [DecidableEq κ] {k : κ} {v : β} :
    ∀ {d : List (κ × β)}, alookup k d = some v → (k, v) ∈ d := by
  intro d
  induction d with
  | nil => intro h; cases h
  | cons p t ih =>
    intro h
    rw [alookup] at h
    split at h
    · rename_i hk
      cases h
      have he : (k, p.2) = p := by rw [← hk]
      rw [he]
      exact List.mem_cons_self p t
    · exact List.mem_cons_of_mem p (ih h)

theorem dinsertAll_nil_eq {κ β : Type} (ps : List (κ × β)) :
    ∀ d, dinsertAll d ps = ps.reverse ++ d := by
  induction ps with
  | nil => intro d; rfl
  | cons p t ih =>
    intro d
    show dinsertAll (dinsert d p.1 p.2) t = (p :: t).reverse ++ d
    rw [ih, dinsert]
    simp

theorem cellSum_eq_zero_of_not_mem (rats : List RatingT) (u m : ℤ)
    (h : (u, m) ∉ rats.map (fun t => (t.1, t.2.1))) : cellSum rats u m = 0 := by
  induction rats with
  | nil => rfl
  | cons t rest ih =>
    rw [cellSum, List.filter_cons]
    have hne : ¬(t.1 = u ∧ t.2.1 = m) := by
      intro ⟨h1, h2⟩
      exact h (by simp [h1, h2])
    rw [if_neg (by simpa using hne)]
    exact ih (fun hm => h (List.mem_cons_of_mem _ hm))

theorem cellSum_cases (rats : List RatingT)
    (hnd : (rats.map (fun t => (t.1, t.2.1))).Nodup) (u m : ℤ) :
    cellSum rats u m = 0 ∨ ∃ t ∈ rats, t.1 = u ∧ t.2.1 = m ∧ cellSum rats u m = t.2.2 := by
  induction rats with
  | nil => left; rfl
  | cons t rest ih =>
    rw [List.map_cons, List.nodup_cons] at hnd
    by_cases hk : t.1 = u ∧ t.2.1 = m
    · right
      refine ⟨t, List.mem_cons_self t rest, hk.1, hk.2, ?_⟩
      rw [cellSum, List.filter_cons, if_pos (by simpa using hk), List.map_cons, List.sum_cons]
      have hz : cellSum rest u m = 0 := by
        apply cellSum_eq_zero_of_not_mem
        rw [← hk.1, ← hk.2]
        exact hnd.1
      rw [cellSum] at hz
      rw [hz, add_zero]
    · have hstep : cellSum (t :: rest) u m = cellSum rest u m := by
        rw [cellSum, List.filter_cons, if_neg (by simpa using hk)]
        rfl
      rw [hstep]
      rcases ih hnd.2 with h0 | ⟨t2, ht2, h1, h2, h3⟩
      · left; exact h0
      · right; exact ⟨t2, List.mem_cons_of_mem t ht2, h1, h2, h3⟩

theorem buildUserItem_length (uids mids : List ℤ) (rats : List RatingT) :
    (buildUserItem uids mids rats).length = uids.length := by
  simp [buildUserItem]

theorem buildUserItem_row_mem (uids mids : List ℤ) (rats : List RatingT)
    (hnd : (rats.map (fun t => (t.1, t.2.1))).Nodup)
    (hr : ∀ t ∈ rats, 1/2 ≤ t.2.2 ∧ t.2.2 ≤ 5) (i : ℕ) :
    ∀ x ∈ (buildUserItem uids mids rats).getD i [], x = 0 ∨ (1/2 ≤ x ∧ x ≤ 5) := by
  by_cases hi : i < uids.length
  · rw [buildUserItem, getD_map_of_lt _ _ hi [] 0]
    intro x hx
    obtain ⟨m, _, hme⟩ := List.mem_map.mp hx
    rcases cellSum_cases rats hnd (uids.getD i 0) m with h0 | ⟨t, ht, _, _, heq⟩
    · left; rw [← hme]; exact h0
    · right; rw [← hme, heq]; exact hr t ht
  · rw [List.getD_eq_default _ _ (by rw [buildUserItem_length]; omega)]
    intro x hx
    cases hx

theorem alookup_fresh_lt {γ : Type} (f : γ → ℤ) (l : List γ) (k : ℤ) (v : ℕ)
    (h : alookup k (dinsertAll [] (l.enum.map (fun p => (f p.2, p.1)))) = some v) :
    v < l.length := by
  have hm := alookup_mem h
  rw [dinsertAll_nil_eq, List.append_nil, List.mem_reverse] at hm
  obtain ⟨p, hp, hpe⟩ := List.mem_map.mp hm
  have hv : p.1 = v := (Prod.mk.injEq _ _ _ _ |>.mp hpe).2
  have hpl : (p.1, p.2) ∈ l.enum := by
    rw [Prod.mk.eta]
    exact hp
  have hsome := List.mk_mem_enum_iff_getElem?.mp hpl
  obtain ⟨hlt, -⟩ := List.getElem?_eq_some.mp hsome
  omega

theorem userFit_means_mem (rats : List RatingT) (k mc : ℕ)
    (df : Option (List (PopMovie ℝ)))
    (hnd : (rats.map (fun t => (t.1, t.2.1))).Nodup)
    (hr : ∀ t ∈ rats, 1/2 ≤ t.2.2 ∧ t.2.2 ≤ 5) {u : ℤ} {ui : ℕ}
    (h : alookup u (userFit (userInit k mc) rats df).userToIdx = some ui) :
    1/2 ≤ (userFit (userInit k mc) rats df).userMeans.getD ui 0 ∧
    (userFit (userInit k mc) rats df).userMeans.getD ui 0 ≤ 5 := by
  have hdict : (userFit (userInit k mc) rats df).userToIdx =
      dinsertAll [] ((sortedUnique (rats.map (fun r => r.1))).enum.map
        (fun p => (p.2, p.1))) := rfl
  rw [hdict] at h
  have hlt : ui < (sortedUnique (rats.map (fun r => r.1))).length :=
    alookup_fresh_lt (fun x => x) _ u ui h
  have hmeans : (userFit (userInit k mc) rats df).userMeans =
      (buildUserItem (sortedUnique (rats.map (fun r => r.1)))
        (sortedUnique (rats.map (fun r => r.2.1))) rats).map userMean := rfl
  rw [hmeans, getD_map_of_lt userMean _ (by rw [buildUserItem_length]; exact hlt) 0 []]
  exact userMean_mem _ (buildUserItem_row_mem _ _ _ hnd hr ui)

theorem ite_none_clip_shape {α : Type} [LinearOrderedField α] (c : Prop)
    [Decidable c] (x : α) :
    (if c then none else some (clip x)) = none ∨
    ∃ y, (if c then none else some (clip x)) = some (clip y) := by
  split
  · exact Or.inl rfl
  · exact Or.inr ⟨x, rfl⟩

theorem hybridPredict_shape {α : Type} [LinearOrderedField α] (isF : Bool)
    (wc wi wu : α) (rn : Bool) (p1 p2 p3 : Option α) :
    hybridPredict isF wc wi wu rn p1 p2 p3 = none ∨
    ∃ x, hybridPredict isF wc wi wu rn p1 p2 p3 = some (clip x) := by
  cases isF with
  | false => exact Or.inl rfl
  | true => exact ite_none_clip_shape _ _

/-- C4: whenever any of the four models' `predict_rating` returns a value on
rating inputs inside `[0.5, 5.0]`, the value lies in `[0.5, 5.0]`.  (The item
and hybrid predictions are clipped; the content prediction is a positively
weighted average of in-range ratings; the user prediction is clipped or falls
back to the user's own mean, itself an average of in-range ratings.) -/
theorem c4_prediction_ranges {α : Type} [LinearOrderedField α]
    (ist : ItemState α) (cst : ContentState α) (u m : ℤ) (rated : List (ℤ × α))
    (rats : List RatingT) (k mc : ℕ) (df : Option (List (PopMovie ℝ)))
    (hnd : (rats.map (fun t => (t.1, t.2.1))).Nodup)
    (hr : ∀ t ∈ rats, 1/2 ≤ t.2.2 ∧ t.2.2 ≤ 5)
    (hcr : ∀ p ∈ rated, 1/2 ≤ p.2 ∧ p.2 ≤ 5)
    (isF : Bool) (wc wi wu : α) (rn : Bool) (p1 p2 p3 : Option α) :
    (∀ r, itemPredict ist u m = some r → 1/2 ≤ r ∧ r ≤ 5) ∧
    (∀ r, contentPredict cst u m rated = some r → 1/2 ≤ r ∧ r ≤ 5) ∧
    (∀ r, userPredict (userFit (userInit k mc) rats df) u m = some r →
      1/2 ≤ r ∧ r ≤ 5) ∧
    (∀ r, hybridPredict isF wc wi wu rn p1 p2 p3 = some r → 1/2 ≤ r ∧ r ≤ 5) := by
  refine ⟨?_, ?_, ?_, ?_⟩
  · intro r h
    rw [itemPredict] at h
    split at h
    · cases h
    · split at h
      · rcases Option.map_eq_some'.mp h with ⟨y, _, rfl⟩
        exact clip_mem y
      · cases h
  · intro r h
    rw [contentPredict] at h
    split at h
    · cases h
    · split at h
      · cases h
      · split at h
        · cases h
        · simp only [] at h
          split at h
          · rename_i mi hs
            cases h
            apply wavg_mem _ (1/2) 5 _ _ hs
            · intro p hp
              have := (List.mem_filter.mp hp).2
              simpa using this
            · intro p hp
              have hp2 := (List.mem_filter.mp hp).1
              obtain ⟨a, ha, hae⟩ := List.mem_filterMap.mp hp2
              obtain ⟨ri, _, hre⟩ := Option.map_eq_some'.mp hae
              have : p.2 = a.2 := by rw [← hre]
              rw [this]
              exact hcr a ha
          · cases h
  · intro r h
    rw [userPredict] at h
    split at h
    · cases h
    · split at h
      · rename_i ui mi hui hmi
        simp only [] at h
        split at h
        · cases h
          exact userFit_means_mem rats k mc df hnd hr hui
        · split at h
          · cases h
            exact userFit_means_mem rats k mc df hnd hr hui
          · cases h
            exact clip_mem _
      · cases h
  · intro r h
    rcases hybridPredict_shape isF wc wi wu rn p1 p2 p3 with hn | ⟨x, hx⟩
    · rw [h] at hn
      cases hn
    · rw [h] at hx
      cases hx
      exact clip_mem x

/-! ### Concrete user-model evaluation (shared by C4's witness and C7)

Dataset: ratings {(1,10,5), (1,20,1), (2,10,5), (2,30,1)}.  Users 1 and 2
co-rate only movie 10 (one common item), their mean-centered similarity is
`1/2 > 0`, and movie 30 is rated only by user 2. -/

theorem c7_build_eval :
    buildUserItem [1, 2] [10, 20, 30]
      [((1 : ℤ), (10 : ℤ), (5 : ℝ)), (1, 20, 1), (2, 10, 5), (2, 30, 1)] =
      [[5, 1, 0], [5, 0, 1]] := by
  norm_num [buildUserItem, cellSum, List.filter_cons]

theorem c7_mean_eval1 : userMean [(5 : ℝ), 1, 0] = 3 := by
  norm_num [userMean, countPos, List.filter_cons]

theorem c7_mean_eval2 : userMean [(5 : ℝ), 0, 1] = 3 := by
  norm_num [userMean, countPos, List.filter_cons]

theorem c7_center_eval :
    ([[5, 1, 0], [5, 0, 1]] : List (List ℝ)).map centerUser =
      [[2, -2, 0], [2, 0, -2]] := by
  rw [List.map_cons, List.map_cons, List.map_nil]
  rw [centerUser, c7_mean_eval1, centerUser, c7_mean_eval2]
  norm_num

theorem c7_sim_eval {k mc : ℕ} :
    mget (userFit (userInit k mc)
      [(1, 10, 5), (1, 20, 1), (2, 10, 5), (2, 30, 1)] none).sim 0 1 = 1/2 := by
  have h0 : (userFit (userInit k mc)
      [((1 : ℤ), (10 : ℤ), (5 : ℝ)), (1, 20, 1), (2, 10, 5), (2, 30, 1)] none).sim =
      userSimMat (buildUserItem [1, 2] [10, 20, 30]
        [(1, 10, 5), (1, 20, 1), (2, 10, 5), (2, 30, 1)]) := rfl
  rw [h0, c7_build_eval, userSimMat, mget_fillDiag0, if_neg (by omega),
    c7_center_eval, mget_simPairs _ (by norm_num) (by norm_num)]
  have hg0 : ([[2, -2, 0], [2, 0, -2]] : List (List ℝ)).getD 0 [] = [2, -2, 0] := rfl
  have hg1 : ([[2, -2, 0], [2, 0, -2]] : List (List ℝ)).getD 1 [] = [2, 0, -2] := rfl
  rw [hg0, hg1, cosSim_eval_eq _ _ 8 4 (by norm_num [dotp]) (by norm_num [dotp])
    (by norm_num [dotp]) (by norm_num)]
  norm_num

/-- The concrete user-based prediction: user 1's mean (3) plus the weighted
deviation `(1/2 · (1 − 3)) / (1/2) = −2`, clipped — i.e. `1.0`.  The
similarity between users 1 and 2 rests on a single co-rated movie, yet it
fully determines the prediction whatever `min_common` was configured. -/
theorem c7_predict_eval (mc : ℕ) :
    userPredict (userFit (userInit 20 mc)
      [(1, 10, 5), (1, 20, 1), (2, 10, 5), (2, 30, 1)] none) 1 30 = some 1 := by
  have hfit : (userFit (userInit 20 mc)
      [((1 : ℤ), (10 : ℤ), (5 : ℝ)), (1, 20, 1), (2, 10, 5), (2, 30, 1)] none).isFitted =
      true := rfl
  have hu : alookup 1 (userFit (userInit 20 mc)
      [((1 : ℤ), (10 : ℤ), (5 : ℝ)), (1, 20, 1), (2, 10, 5), (2, 30, 1)] none).userToIdx =
      some 0 := rfl
  have hm : alookup 30 (userFit (userInit 20 mc)
      [((1 : ℤ), (10 : ℤ), (5 : ℝ)), (1, 20, 1), (2, 10, 5), (2, 30, 1)] none).movieToIdx =
      some 2 := rfl
  have hids : (userFit (userInit 20 mc)
      [((1 : ℤ), (10 : ℤ), (5 : ℝ)), (1, 20, 1), (2, 10, 5), (2, 30, 1)] none).userIds =
      [1, 2] := rfl
  have hmat : (userFit (userInit 20 mc)
      [((1 : ℤ), (10 : ℤ), (5 : ℝ)), (1, 20, 1), (2, 10, 5), (2, 30, 1)] none).matrix =
      [[5, 1, 0], [5, 0, 1]] := by
    have : (userFit (userInit 20 mc)
        [((1 : ℤ), (10 : ℤ), (5 : ℝ)), (1, 20, 1), (2, 10, 5), (2, 30, 1)] none).matrix =
        buildUserItem [1, 2] [10, 20, 30]
          [(1, 10, 5), (1, 20, 1), (2, 10, 5), (2, 30, 1)] := rfl
    rw [this, c7_build_eval]
  have hmeans : (userFit (userInit 20 mc)
      [((1 : ℤ), (10 : ℤ), (5 : ℝ)), (1, 20, 1), (2, 10, 5), (2, 30, 1)] none).userMeans =
      [3, 3] := by
    have : (userFit (userInit 20 mc)
        [((1 : ℤ), (10 : ℤ), (5 : ℝ)), (1, 20, 1), (2, 10, 5), (2, 30, 1)] none).userMeans =
        (buildUserItem [1, 2] [10, 20, 30]
          [(1, 10, 5), (1, 20, 1), (2, 10, 5), (2, 30, 1)]).map userMean := rfl
    rw [this, c7_build_eval, List.map_cons, List.map_cons, List.map_nil,
      c7_mean_eval1, c7_mean_eval2]
  have hk : (userFit (userInit 20 mc)
      [((1 : ℤ), (10 : ℤ), (5 : ℝ)), (1, 20, 1), (2, 10, 5), (2, 30, 1)] none).k = 20 := rfl
  rw [userPredict, hfit, hu, hm]
  simp only [Bool.not_true, Bool.false_eq_true, if_false]
  rw [hids, hmat, hmeans, hk]
  have hraters : (List.range ([(1 : ℤ), 2].length)).filter
      (fun r => decide (0 < mget ([[5, 1, 0], [5, 0, 1]] : List (List ℝ)) r 2)) = [1] := by
    norm_num [mget, List.filter_cons, show List.range 2 = [0, 1] from rfl]
  rw [hraters]
  simp only [List.map_cons, List.map_nil]
  rw [c7_sim_eval]
  norm_num [topKPairsDesc, List.filter_cons, mget, clip]

/-! ### C7 — `min_common` has no operational effect -/

/-- C7 (failing input, code bug): `min_common` is stored by
`UserBasedModel.__init__` and never read again.  On the concrete dataset,
users 1 and 2 share only one co-rated movie (movie 10), yet with
`min_common = 3` — and equally with `min_common = 100` — user 2's rating fully
determines the prediction for user 1 on movie 30 (`1.0`, not user 1's own
mean `3.0`): pairs below the `min_common` threshold are *not* excluded, and
the two fitted models differ in nothing but the stored attribute. -/
theorem c7_min_common_inert :
    userPredict (userFit (userInit 20 3)
      [(1, 10, 5), (1, 20, 1), (2, 10, 5), (2, 30, 1)] none) 1 30 = some 1 ∧
    userPredict (userFit (userInit 20 100)
      [(1, 10, 5), (1, 20, 1), (2, 10, 5), (2, 30, 1)] none) 1 30 = some 1 ∧
    userFit (userInit 20 3)
      [(1, 10, 5), (1, 20, 1), (2, 10, 5), (2, 30, 1)] none =
      { userFit (userInit 20 100)
          [(1, 10, 5), (1, 20, 1), (2, 10, 5), (2, 30, 1)] none with
        minCommon := 3 } :=
  ⟨c7_predict_eval 3, c7_predict_eval 100, rfl⟩

/-- C4 (witness): the range statement applied on concrete inputs — the
item/content/hybrid parts over `ℚ`, the user part on the fitted `ℝ` model of
`c7_predict_eval` (whose prediction is `1.0`). -/
theorem c4_witness :
    (([((1 : ℤ), (10 : ℤ), (5 : ℝ)), (1, 20, 1), (2, 10, 5), (2, 30, 1)].map
        (fun t => (t.1, t.2.1))).Nodup ∧
      (∀ t ∈ [((1 : ℤ), (10 : ℤ), (5 : ℝ)), (1, 20, 1), (2, 10, 5), (2, 30, 1)],
        1/2 ≤ t.2.2 ∧ t.2.2 ≤ 5) ∧
      (∀ p ∈ [((10 : ℤ), (4 : ℚ))], 1/2 ≤ p.2 ∧ p.2 ≤ 5)) ∧
    ((1/2 ≤ (1 : ℚ) ∧ (1 : ℚ) ≤ 5) ∧
      (1/2 ≤ (4 : ℚ) ∧ (4 : ℚ) ≤ 5) ∧
      (1/2 ≤ (1 : ℝ) ∧ (1 : ℝ) ≤ 5) ∧
      (1/2 ≤ (3 : ℚ) ∧ (3 : ℚ) ≤ 5)) := by
  have hnd : (([((1 : ℤ), (10 : ℤ), (5 : ℝ)), (1, 20, 1), (2, 10, 5), (2, 30, 1)]).map
      (fun t => (t.1, t.2.1))).Nodup := by
    simp
  have hr : ∀ t ∈ [((1 : ℤ), (10 : ℤ), (5 : ℝ)), (1, 20, 1), (2, 10, 5), (2, 30, 1)],
      1/2 ≤ t.2.2 ∧ t.2.2 ≤ 5 := by
    intro t ht
    fin_cases ht <;> norm_num
  have hcr : ∀ p ∈ [((10 : ℤ), (4 : ℚ))], 1/2 ≤ p.2 ∧ p.2 ≤ 5 := by
    intro p hp
    fin_cases hp <;> norm_num
  have h1 := c4_prediction_ranges { iqs with sim := [[0, 1], [1, 0]] } cqs 1 10
    [(10, 4)] [(1, 10, 5), (1, 20, 1), (2, 10, 5), (2, 30, 1)] 20 3 none hnd hr hcr
    true 1 1 1 true (some 3) none none
  have h2 := c4_prediction_ranges { iqs with sim := [[0, 1], [1, 0]] } cqs 1 30
    [(10, 4)] [(1, 10, 5), (1, 20, 1), (2, 10, 5), (2, 30, 1)] 20 3 none hnd hr hcr
    true 1 1 1 true (some 3) none none
  have hitem : itemPredict ({ iqs with sim := [[0, 1], [1, 0]] }) 1 10 = some 1 := by
    norm_num [itemPredict, iqs, itemPredictIdx, topKPairsDesc, mget, alookup,
      List.filter_cons, clip, min_def, max_def, List.getElem_cons_succ,
      List.getElem_cons_zero, show List.range 2 = [0, 1] from rfl]
    norm_num [show ([5, 1] : List ℚ)[1] = 1 from rfl]
  have hcontent : contentPredict cqs 1 10 [(10, 4)] = some 4 := by
    norm_num [contentPredict, cqs, mget, alookup, List.filter_cons, List.filterMap_cons]
  have hhybrid : hybridPredict true (1 : ℚ) 1 1 true (some 3) none none = some 3 := by
    norm_num [hybridPredict, clip, min_def, max_def]
  refine ⟨⟨hnd, hr, hcr⟩, h1.1 1 hitem, h1.2.1 4 hcontent,
    h2.2.2.1 1 (c7_predict_eval 3), h1.2.2.2 3 hhybrid⟩

/-! ### C6 — the user-based prediction formula and the no-neighbor asymmetry -/

/-- C6: on a fitted user model with known user and movie,
`UserBasedModel.predict_rating` returns the user's own mean when nobody rated
the movie or no positively similar neighbor survives the top-`k` cut; in the
remaining case it returns the user's mean plus the similarity-weighted average
of neighbor deviations (neighbor rating minus neighbor mean), clipped to
`[0.5, 5.0]`.  `ItemBasedModel.predict_rating` instead returns the
no-prediction signal `None` in the analogous no-positive-neighbor case. -/
theorem c6_user_prediction_formula {α : Type} [LinearOrderedField α]
    (ust : UserState α) (ist : ItemState α) (u m u2 m2 : ℤ) (ui mi ui2 mi2 : ℕ)
    (hf : ust.isFitted = true) (hu : alookup u ust.userToIdx = some ui)
    (hm : alookup m ust.movieToIdx = some mi)
    (hfi : ist.isFitted = true) (hui : alookup u2 ist.userToIdx = some ui2)
    (hmi : alookup m2 ist.movieToIdx = some mi2) :
    (((List.range ust.userIds.length).filter
        (fun r => decide (0 < mget ust.matrix r mi))) = [] →
      userPredict ust u m = some (ust.userMeans.getD ui 0)) ∧
    (∀ raters, raters = (List.range ust.userIds.length).filter
        (fun r => decide (0 < mget ust.matrix r mi)) → raters ≠ [] →
      (topKPairsDesc ust.k (raters.map (fun r => (r, mget ust.sim ui r)))).filter
        (fun p => decide (0 < p.2)) = [] →
      userPredict ust u m = some (ust.userMeans.getD ui 0)) ∧
    (∀ raters pos, raters = (List.range ust.userIds.length).filter
        (fun r => decide (0 < mget ust.matrix r mi)) → raters ≠ [] →
      pos = (topKPairsDesc ust.k (raters.map (fun r => (r, mget ust.sim ui r)))).filter
        (fun p => decide (0 < p.2)) → pos ≠ [] →
      userPredict ust u m = some (clip (ust.userMeans.getD ui 0 +
        (pos.map (fun p =>
          p.2 * (mget ust.matrix p.1 mi - ust.userMeans.getD p.1 0))).sum /
        (pos.map (fun p => p.2)).sum))) ∧
    (∀ ratedIdx, ratedIdx = (List.range ist.movieIds.length).filter
        (fun j => decide (0 < (ist.matrix.getD ui2 []).getD j 0)) →
      (topKPairsDesc ist.k (ratedIdx.map
        (fun j => (j, mget ist.sim mi2 j)))).filter (fun p => decide (0 < p.2)) = [] →
      itemPredict ist u2 m2 = none) := by
  refine ⟨?_, ?_, ?_, ?_⟩
  · intro hempty
    rw [userPredict, hf, hu, hm]
    simp only [Bool.not_true, Bool.false_eq_true, if_false]
    rw [if_pos (by rw [hempty]; rfl)]
  · intro raters hraters hne hpos
    rw [userPredict, hf, hu, hm]
    simp only [Bool.not_true, Bool.false_eq_true, if_false]
    rw [if_neg (by rw [← hraters]; simpa using hne), if_pos (by rw [← hraters, hpos]; rfl)]
  · intro raters pos hraters hne hpos hposne
    rw [userPredict, hf, hu, hm]
    simp only [Bool.not_true, Bool.false_eq_true, if_false]
    rw [if_neg (by rw [← hraters]; simpa using hne),
      if_neg (by rw [← hraters, ← hpos]; simpa using hposne)]
    rw [← hraters, ← hpos]
  · intro ratedIdx hrated hpos
    rw [itemPredict, hfi, hui, hmi]
    simp only [Bool.not_true, Bool.false_eq_true, if_false]
    rw [itemPredictIdx]
    by_cases hre : ((List.range ist.movieIds.length).filter
        (fun j => decide (0 < (ist.matrix.getD ui2 []).getD j 0))).isEmpty = true
    · rw [if_pos (by rw [← hrated] at hre; rw [← hrated]; exact hre)]
      rfl
    · rw [if_neg (by rw [← hrated] at hre; rw [← hrated]; exact hre)]
      simp only []
      rw [if_pos (by rw [← hrated, hpos]; rfl)]
      rfl

/-- C6 (witness): the formula case on the concrete `ℚ` user state (prediction
`clip(5 + (1/2·(1−1))/(1/2)) = 5`) and the item-based `None` case on `iqs`,
whose only similarities to already-rated items are `0` and `-1`. -/
theorem c6_witness :
    (uqs.isFitted = true ∧ alookup (1 : ℤ) uqs.userToIdx = some 0 ∧
      alookup (30 : ℤ) uqs.movieToIdx = some 1 ∧
      iqs.isFitted = true ∧ alookup (1 : ℤ) iqs.userToIdx = some 0 ∧
      alookup (10 : ℤ) iqs.movieToIdx = some 0) ∧
    userPredict uqs 1 30 = some (clip (uqs.userMeans.getD 0 0 +
      ([((1 : ℕ), (1/2 : ℚ))].map (fun p =>
        p.2 * (mget uqs.matrix p.1 1 - uqs.userMeans.getD p.1 0))).sum /
      ([((1 : ℕ), (1/2 : ℚ))].map (fun p => p.2)).sum)) ∧
    itemPredict iqs 1 10 = none := by
  have h := c6_user_prediction_formula uqs iqs 1 30 1 10 0 1 0 0 rfl rfl rfl rfl rfl rfl
  refine ⟨⟨rfl, rfl, rfl, rfl, rfl, rfl⟩, ?_, ?_⟩
  · apply h.2.2.1 [1] [((1 : ℕ), (1/2 : ℚ))]
    · norm_num [uqs, mget, List.filter_cons, show List.range 2 = [0, 1] from rfl]
    · simp
    · norm_num [uqs, mget, topKPairsDesc, List.filter_cons]
    · simp
  · apply h.2.2.2 [0, 1]
    · norm_num [iqs, mget, List.filter_cons, show List.range 2 = [0, 1] from rfl]
    · norm_num [iqs, mget, topKPairsDesc, List.filter_cons]

/-! ### C5 — the hybrid blend -/

theorem movieId_setScore {α : Type} (t : HSrc) (c : HCand α) (s : α) :
    (setScore t c s).movieId = c.movieId := by
  cases t <;> rfl

theorem setScore_setScore {α : Type} (t : HSrc) (c : HCand α) (s1 s2 : α) :
    setScore t (setScore t c s1) s2 = setScore t c s2 := by
  cases t <;> rfl

theorem lastScore_cons {α : Type} (e : Rec α) (es : List (Rec α)) (m : ℤ) :
    lastScore (e :: es) m =
      match lastScore es m with
      | some s => some s
      | none => if e.movieId = m then some e.score else none := by
  rw [lastScore, List.reverse_cons, List.find?_append]
  cases h : es.reverse.find? (fun x => decide (x.movieId = m)) with
  | none =>
    by_cases hm : e.movieId = m <;>
      simp [lastScore, h, Option.or, List.find?, hm]
  | some c =>
    simp [lastScore, h, Option.or]

theorem candFind_cons {α : Type} (c : HCand α) (r : List (HCand α)) (m : ℤ) :
    candFind (c :: r) m = if c.movieId = m then some c else candFind r m := by
  rw [candFind, List.find?]
  by_cases h : c.movieId = m
  · rw [decide_eq_true h, if_pos h]
  · rw [decide_eq_false h, if_neg h]
    rfl

theorem candFind_addEntry {α : Type} (t : HSrc) (l : List (HCand α)) (e : Rec α) (m : ℤ) :
    candFind (addEntry t l e) m =
      if e.movieId = m then
        some (setScore t ((candFind l m).getD (blankCand m)) e.score)
      else candFind l m := by
  induction l with
  | nil =>
    rw [addEntry, candFind_cons, movieId_setScore]
    by_cases hm : e.movieId = m
    · rw [if_pos (show (blankCand e.movieId : HCand α).movieId = m from hm), if_pos hm,
        candFind, List.find?_nil, Option.getD_none, hm]
    · rw [if_neg (show ¬(blankCand e.movieId : HCand α).movieId = m from hm), if_neg hm,
        candFind, List.find?_nil]
  | cons c r ih =>
    rw [addEntry]
    by_cases hce : c.movieId = e.movieId
    · rw [if_pos hce, candFind_cons, movieId_setScore]
      by_cases hm : e.movieId = m
      · rw [if_pos (hce.trans hm), if_pos hm, candFind_cons, if_pos (hce.trans hm),
          Option.getD_some]
      · have hcm : ¬c.movieId = m := fun h => hm (hce.symm.trans h)
        rw [if_neg hcm, if_neg hm, candFind_cons, if_neg hcm]
    · rw [if_neg hce, candFind_cons]
      by_cases hcm : c.movieId = m
      · have hem : ¬e.movieId = m := fun h => hce (hcm.trans h.symm)
        rw [if_pos hcm, if_neg hem, candFind_cons, if_pos hcm]
      · have hself : candFind (c :: r) m = candFind r m := by
          rw [candFind_cons, if_neg hcm]
        rw [if_neg hcm, ih, hself]

theorem candFind_addAll {α : Type} (t : HSrc) (es : List (Rec α)) :
    ∀ (l : List (HCand α)) (m : ℤ),
      candFind (addAll t l es) m =
        match lastScore es m with
        | some s => some (setScore t ((candFind l m).getD (blankCand m)) s)
        | none => candFind l m := by
  induction es with
  | nil =>
    intro l m
    rw [addAll]
    simp [lastScore]
  | cons e es ih =>
    intro l m
    rw [show addAll t l (e :: es) = addAll t (addEntry t l e) es from rfl, ih,
      lastScore_cons]
    cases h : lastScore es m with
    | some s =>
      simp only []
      rw [candFind_addEntry]
      by_cases hm : e.movieId = m
      · rw [if_pos hm, Option.getD_some, setScore_setScore]
      · rw [if_neg hm]
    | none =>
      simp only []
      rw [candFind_addEntry]
      by_cases hm : e.movieId = m
      · rw [if_pos hm, if_pos hm]
      · rw [if_neg hm, if_neg hm]

theorem candFind_hybridCandidates_eq {α : Type} (cb ib ub : List (Rec α)) (m : ℤ)
    (c : HCand α) (h : candFind (hybridCandidates cb ib ub) m = some c) :
    c.movieId = m ∧ c.sc = lastScore cb m ∧ c.si = lastScore ib m ∧
    c.su = lastScore ub m ∧
    ¬(lastScore cb m = none ∧ lastScore ib m = none ∧ lastScore ub m = none) := by
  rw [hybridCandidates, candFind_addAll, candFind_addAll, candFind_addAll] at h
  cases h1 : lastScore cb m <;> cases h2 : lastScore ib m <;> cases h3 : lastScore ub m <;>
    rw [h1, h2, h3] at h <;>
    simp_all [setScore, blankCand, candFind] <;>
    (subst h; simp)

theorem map_movieId_addEntry {α : Type} (t : HSrc) (l : List (HCand α)) (e : Rec α) :
    (addEntry t l e).map (fun c => c.movieId) =
      if e.movieId ∈ l.map (fun c => c.movieId) then l.map (fun c => c.movieId)
      else l.map (fun c => c.movieId) ++ [e.movieId] := by
  induction l with
  | nil =>
    simp [addEntry, movieId_setScore, blankCand]
  | cons c r ih =>
    rw [addEntry]
    by_cases hce : c.movieId = e.movieId
    · rw [if_pos hce, List.map_cons, movieId_setScore, List.map_cons,
        if_pos (List.mem_cons.mpr (Or.inl hce.symm))]
    · rw [if_neg hce, List.map_cons, ih, List.map_cons]
      by_cases hmem : e.movieId ∈ r.map (fun c => c.movieId)
      · rw [if_pos hmem, if_pos (List.mem_cons.mpr (Or.inr hmem))]
      · rw [if_neg hmem, if_neg (by
          intro hc
          rcases List.mem_cons.mp hc with h | h
          · exact hce h.symm
          · exact hmem h)]
        rfl

theorem nodup_map_movieId_addAll {α : Type} (t : HSrc) (es : List (Rec α)) :
    ∀ l : List (HCand α), (l.map (fun c => c.movieId)).Nodup →
      ((addAll t l es).map (fun c => c.movieId)).Nodup := by
  induction es with
  | nil => intro l h; exact h
  | cons e es ih =>
    intro l h
    rw [show addAll t l (e :: es) = addAll t (addEntry t l e) es from rfl]
    apply ih
    rw [map_movieId_addEntry]
    by_cases hmem : e.movieId ∈ l.map (fun c => c.movieId)
    · rw [if_pos hmem]
      exact h
    · rw [if_neg hmem]
      rw [List.nodup_append]
      exact ⟨h, List.nodup_singleton _, by simpa using hmem⟩

theorem nodup_hybridCandidates {α : Type} (cb ib ub : List (Rec α)) :
    ((hybridCandidates cb ib ub).map (fun c => c.movieId)).Nodup := by
  rw [hybridCandidates]
  exact nodup_map_movieId_addAll _ _ _
    (nodup_map_movieId_addAll _ _ _ (nodup_map_movieId_addAll _ _ _ (by simp)))

theorem candFind_of_mem {α : Type} : ∀ {l : List (HCand α)},
    (l.map (fun c => c.movieId)).Nodup → ∀ {c : HCand α}, c ∈ l →
      candFind l c.movieId = some c := by
  intro l
  induction l with
  | nil => intro _ c hc; cases hc
  | cons a r ih =>
    intro hnd c hc
    rw [List.map_cons, List.nodup_cons] at hnd
    rw [candFind_cons]
    rcases List.mem_cons.mp hc with rfl | hcr
    · rw [if_pos rfl]
    · by_cases hid : a.movieId = c.movieId
      · exfalso
        apply hnd.1
        rw [hid]
        exact List.mem_map.mpr ⟨c, hcr, rfl⟩
      · rw [if_neg hid]
        exact ih hnd.2 hcr

theorem lastScore_eq_none_iff {α : Type} (l : List (Rec α)) (m : ℤ) :
    lastScore l m = none ↔ m ∉ l.map (fun e => e.movieId) := by
  rw [lastScore, Option.map_eq_none', List.find?_eq_none]
  constructor
  · intro h hmem
    obtain ⟨e, he, hem⟩ := List.mem_map.mp hmem
    exact h e (List.mem_reverse.mpr he) (by simpa using hem)
  · intro h e he hp
    exact h (List.mem_map.mpr ⟨e, List.mem_reverse.mp he, by simpa using hp⟩)

theorem blendDen_pos {α : Type} [LinearOrderedField α] {wc wi wu : α}
    (hwc : 0 < wc) (hwi : 0 < wi) (hwu : 0 < wu) (c : HCand α)
    (h : ¬(c.sc = none ∧ c.si = none ∧ c.su = none)) :
    0 < blendDen wc wi wu c := by
  rw [blendDen]
  cases hsc : c.sc <;> cases hsi : c.si <;> cases hsu : c.su <;>
    simp [hsc, hsi, hsu] at h ⊢ <;> positivity

theorem take_filter_prefix {γ : Type} (p : γ → Bool) (l : List γ) (n : ℕ) :
    (l.take n).filter p <+: l.filter p :=
  ⟨(l.drop n).filter p, by rw [← List.filter_append, List.take_append_drop]⟩

/-- C5: on a fitted hybrid model, `recommend` asks each sub-model for `2n`
candidates (the content model first — it may mutate the exclusion set, and the
item/user models and the final filter then see the mutated set `excl1`);
unions the candidate ids; scores every returned candidate as the weighted
average over exactly the sub-models that scored it, with the weights
renormalised per candidate (`blendNum/blendDen`, `blendDen > 0` whenever the
weights are positive, so a missing sub-model opinion never zeroes a score);
sorts by blended score descending with a stable sort; and returns at most `n`
results. -/
theorem c5_hybrid_recommend {α : Type} [LinearOrderedField α]
    (wc wi wu : α) (hwc : 0 < wc) (hwi : 0 < wi) (hwu : 0 < wu)
    (contentRec : ℕ → List ℤ → List (Rec α) × List ℤ)
    (itemRec userRec : ℕ → List ℤ → List (Rec α)) (n : ℕ) (excl : List ℤ)
    (cb : List (Rec α)) (excl1 : List ℤ) (ib ub : List (Rec α))
    (hcb : contentRec (n * 2) excl = (cb, excl1))
    (hib : itemRec (n * 2) excl1 = ib) (hub : userRec (n * 2) excl1 = ub) :
    (hybridRecommend true wc wi wu contentRec itemRec userRec n excl).2 = excl1 ∧
    (hybridRecommend true wc wi wu contentRec itemRec userRec n excl).1.length ≤ n ∧
    (hybridRecommend true wc wi wu contentRec itemRec userRec n excl).1.Pairwise
      (fun a b => b.score ≤ a.score) ∧
    (∀ e ∈ (hybridRecommend true wc wi wu contentRec itemRec userRec n excl).1,
      e.movieId ∉ excl1 ∧
      (e.movieId ∈ cb.map (fun r => r.movieId) ∨ e.movieId ∈ ib.map (fun r => r.movieId) ∨
        e.movieId ∈ ub.map (fun r => r.movieId)) ∧
      0 < blendDen wc wi wu ⟨e.movieId, lastScore cb e.movieId,
        lastScore ib e.movieId, lastScore ub e.movieId⟩ ∧
      e.score = blendNum wc wi wu ⟨e.movieId, lastScore cb e.movieId,
          lastScore ib e.movieId, lastScore ub e.movieId⟩ /
        blendDen wc wi wu ⟨e.movieId, lastScore cb e.movieId,
          lastScore ib e.movieId, lastScore ub e.movieId⟩) ∧
    (∀ s : α, (hybridRecommend true wc wi wu contentRec itemRec userRec n excl).1.filter
        (fun e => e.score = s) <+:
      (hybridBlend wc wi wu excl1 (hybridCandidates cb ib ub)).filter
        (fun e => e.score = s)) := by
  have hrec : hybridRecommend true wc wi wu contentRec itemRec userRec n excl =
      ((sortDescBy (fun e : Rec α => e.score)
        (hybridBlend wc wi wu excl1 (hybridCandidates cb ib ub))).take n, excl1) := by
    rw [hybridRecommend]
    simp only [Bool.not_true, Bool.false_eq_true, if_false]
    rw [hcb]
    simp only []
    rw [hib, hub]
  rw [hrec]
  refine ⟨rfl, ?_, ?_, ?_, ?_⟩
  · simp [List.length_take]
  · exact List.Pairwise.sublist (List.take_sublist _ _)
      (sortDescBy_sorted (fun e : Rec α => e.score) _)
  · intro e he
    have he2 : e ∈ hybridBlend wc wi wu excl1 (hybridCandidates cb ib ub) := by
      rw [← sortDescBy_mem (fun e : Rec α => e.score)]
      exact (List.take_sublist _ _).mem he
    rw [hybridBlend] at he2
    obtain ⟨c, hc, hce⟩ := List.mem_filterMap.mp he2
    by_cases hex : c.movieId ∈ excl1
    · rw [if_pos hex] at hce
      cases hce
    rw [if_neg hex] at hce
    cases hce
    have hfind := candFind_of_mem (nodup_hybridCandidates cb ib ub) hc
    obtain ⟨hid, hsc, hsi, hsu, hpresent⟩ :=
      candFind_hybridCandidates_eq cb ib ub c.movieId c hfind
    have hcrec : c = ⟨c.movieId, lastScore cb c.movieId, lastScore ib c.movieId,
        lastScore ub c.movieId⟩ := by
      cases c
      simp only at hsc hsi hsu ⊢
      rw [hsc, hsi, hsu]
    have hden : 0 < blendDen wc wi wu c :=
      blendDen_pos hwc hwi hwu c (by
        intro ⟨a, b, d⟩
        exact hpresent ⟨by rw [← hsc]; exact a, by rw [← hsi]; exact b,
          by rw [← hsu]; exact d⟩)
    refine ⟨hex, ?_, ?_, ?_⟩
    · by_cases h1 : lastScore cb c.movieId = none
      · by_cases h2 : lastScore ib c.movieId = none
        · right; right
          have h3 : lastScore ub c.movieId ≠ none := fun h3 => hpresent ⟨h1, h2, h3⟩
          have := (not_iff_not.mpr (lastScore_eq_none_iff ub c.movieId)).mp h3
          simpa using this
        · right; left
          have := (not_iff_not.mpr (lastScore_eq_none_iff ib c.movieId)).mp h2
          simpa using this
      · left
        have := (not_iff_not.mpr (lastScore_eq_none_iff cb c.movieId)).mp h1
        simpa using this
    · rw [← hcrec]
      exact hden
    · simp only []
      rw [blendScore, if_pos hden, ← hcrec]
  · intro s
    have h1 := take_filter_prefix (fun e : Rec α => decide (e.score = s))
      (sortDescBy (fun e : Rec α => e.score)
        (hybridBlend wc wi wu excl1 (hybridCandidates cb ib ub))) n
    have h2 := sortDescBy_filter_eq (fun e : Rec α => e.score)
      (hybridBlend wc wi wu excl1 (hybridCandidates cb ib ub)) s
    rw [h2] at h1
    exact h1

/-- C5 (witness): the blend statement on concrete `ℚ` sub-model functions
(the content sub-model adds id 50 to the exclusion set, mimicking the
rated-history mutation). -/
theorem c5_witness :
    ((0 : ℚ) < 3 ∧ (0 : ℚ) < 3 ∧ (0 : ℚ) < 4 ∧
      (fun (_ : ℕ) (e : List ℤ) => ([(⟨100, 4⟩ : Rec ℚ)], e ++ [50])) (1 * 2) [] =
        ([(⟨100, 4⟩ : Rec ℚ)], ([] : List ℤ) ++ [50])) ∧
    (hybridRecommend true (3 : ℚ) 3 4
      (fun _ e => ([(⟨100, 4⟩ : Rec ℚ)], e ++ [50]))
      (fun _ _ => [(⟨100, 2⟩ : Rec ℚ), ⟨200, 3⟩]) (fun _ _ => []) 1 []).1.length ≤ 1 ∧
    (hybridRecommend true (3 : ℚ) 3 4
      (fun _ e => ([(⟨100, 4⟩ : Rec ℚ)], e ++ [50]))
      (fun _ _ => [(⟨100, 2⟩ : Rec ℚ), ⟨200, 3⟩]) (fun _ _ => []) 1 []).2 =
      ([] : List ℤ) ++ [50] := by
  have h := c5_hybrid_recommend (3 : ℚ) 3 4 (by norm_num) (by norm_num) (by norm_num)
    (fun _ e => ([(⟨100, 4⟩ : Rec ℚ)], e ++ [50]))
    (fun _ _ => [(⟨100, 2⟩ : Rec ℚ), ⟨200, 3⟩]) (fun _ _ => []) 1 []
    [(⟨100, 4⟩ : Rec ℚ)] (([] : List ℤ) ++ [50]) [(⟨100, 2⟩ : Rec ℚ), ⟨200, 3⟩] []
    rfl rfl rfl
  exact ⟨⟨by norm_num, by norm_num, by norm_num, rfl⟩, h.2.1, h.1⟩

/-! ### C8 — the zero-weight entries of `recommend_for_user` are uninitialised -/

theorem c8_simMat_eval :
    (contentFit contentInit [⟨5, 4, 1⟩, ⟨6, 3, 1⟩] [[1, 0], [0, 1]]).simMat =
      [[1, 0], [0, 1]] := by
  have h0 : (contentFit contentInit [⟨5, 4, 1⟩, ⟨6, 3, 1⟩] [[1, 0], [0, 1]]).simMat =
      contentSimMat [[1, 0], [0, 1]] := rfl
  have hxx : cosSim [(1 : ℝ), 0] [1, 0] = 1 :=
    cosSim_self_of_ne_zero (by norm_num [dotp])
  have hyy : cosSim [(0 : ℝ), 1] [0, 1] = 1 :=
    cosSim_self_of_ne_zero (by norm_num [dotp])
  have hxy : cosSim [(1 : ℝ), 0] [0, 1] = 0 := by
    rw [cosSim_eval_eq _ _ 1 0 (by norm_num [dotp]) (by norm_num [dotp])
      (by norm_num [dotp]) (by norm_num)]
    norm_num
  have hyx : cosSim [(0 : ℝ), 1] [1, 0] = 0 := by
    rw [cosSim_comm]
    exact hxy
  rw [h0, contentSimMat]
  simp [simPairs, hxx, hxy, hyx, hyy]

/-- C8 (code bug): `np.divide(scores, weights, where=weights > 0)` is called
*without* an `out=` argument, so positions with zero accumulated weight are
left uninitialised (and `np.nan_to_num` only replaces NaN/inf, not arbitrary
finite garbage).  On a two-movie catalog with orthogonal feature rows, a user
who rated only movie 5 gives movie 6 zero accumulated weight — and the score
reported for movie 6 is whatever the uninitialised memory held (`junk 1`),
not necessarily `0`: with memory contents 0 the result score is 0, with
memory contents 9 it is 9. -/
theorem c8_uninitialised_divide :
    contentRecommendForUser
      (contentFit contentInit [⟨5, 4, 1⟩, ⟨6, 3, 1⟩] [[1, 0], [0, 1]])
      [(5, 5)] 5 [] (fun _ => 0) = .ok ([⟨6, 0⟩], []) ∧
    contentRecommendForUser
      (contentFit contentInit [⟨5, 4, 1⟩, ⟨6, 3, 1⟩] [[1, 0], [0, 1]])
      [(5, 5)] 5 [] (fun _ => 9) = .ok ([⟨6, 9⟩], []) := by
  have hfit : (contentFit contentInit [⟨5, 4, 1⟩, ⟨6, 3, 1⟩]
      [[1, 0], [0, 1]]).isFitted = true := rfl
  have hdict : (contentFit contentInit [⟨5, 4, 1⟩, ⟨6, 3, 1⟩]
      [[1, 0], [0, 1]]).movieIdToIdx = [(6, 1), (5, 0)] := rfl
  have hidx : (contentFit contentInit [⟨5, 4, 1⟩, ⟨6, 3, 1⟩]
      [[1, 0], [0, 1]]).idxToMovieId = [(1, 6), (0, 5)] := rfl
  have hmov : (contentFit contentInit [⟨5, 4, 1⟩, ⟨6, 3, 1⟩]
      [[1, 0], [0, 1]]).movies = [⟨5, 4, 1⟩, ⟨6, 3, 1⟩] := rfl
  constructor <;>
  · rw [contentRecommendForUser, hfit]
    simp only [Bool.not_true, Bool.false_eq_true, if_false, List.isEmpty_cons,
      if_false]
    rw [hdict, hidx, hmov, c8_simMat_eval]
    norm_num [alookup, mget, argsortDesc, sortDescBy, keyGE, List.insertionSort,
      List.orderedInsert, List.filter_cons, List.filterMap_cons,
      show List.range 2 = [0, 1] from rfl]

/-! ### C9 — `fit` does not fully replace state: index dicts are merged -/

theorem alookup_append_agree {κ β : Type} [DecidableEq κ] (l d1 d2 : List (κ × β))
    (k : κ) (hk : k ∈ l.map (fun p => p.1)) :
    alookup k (l ++ d1) = alookup k (l ++ d2) := by
  induction l with
  | nil => simp at hk
  | cons p t ih =>
    rw [List.cons_append, List.cons_append, alookup, alookup]
    by_cases hp : p.1 = k
    · rw [if_pos hp, if_pos hp]
    · rw [if_neg hp, if_neg hp]
      apply ih
      rcases List.mem_map.mp hk with ⟨q, hq, hqe⟩
      rcases List.mem_cons.mp hq with rfl | hqt
      · exact absurd hqe hp
      · exact List.mem_map.mpr ⟨q, hqt, hqe⟩

theorem alookup_dinsertAll_agree {κ β : Type} [DecidableEq κ] (d1 d2 ps : List (κ × β))
    (k : κ) (hk : k ∈ ps.map (fun p => p.1)) :
    alookup k (dinsertAll d1 ps) = alookup k (dinsertAll d2 ps) := by
  rw [dinsertAll_nil_eq ps d1, dinsertAll_nil_eq ps d2]
  exact alookup_append_agree _ d1 d2 k (by simpa using hk)

/-- C9 (amended): `fit` replaces the similarity matrix, the stored data frames
and the fitted flag, and its index insertions override earlier bindings for
every id (or dense index) occurring in the new data — but bindings for ids
absent from the new data survive from earlier fits, so a refitted instance is
*not* observationally equivalent to a freshly fitted one (see the
counterexample).  Stated for the content model's refit against a fresh fit,
and likewise for the item-based and user-based models. -/
theorem c9_amended (s : ContentState ℝ) (movies : List (CMovie ℝ))
    (feats : List (List ℝ)) (si : ItemState ℝ) (su : UserState ℝ)
    (rats : List RatingT) (df : Option (List (PopMovie ℝ))) :
    ((contentFit s movies feats).simMat = (contentFit contentInit movies feats).simMat ∧
      (contentFit s movies feats).movies = (contentFit contentInit movies feats).movies ∧
      (contentFit s movies feats).tfidf = (contentFit contentInit movies feats).tfidf ∧
      (contentFit s movies feats).isFitted = (contentFit contentInit movies feats).isFitted) ∧
    (∀ id ∈ movies.map (fun mv => mv.movieId),
      alookup id (contentFit s movies feats).movieIdToIdx =
        alookup id (contentFit contentInit movies feats).movieIdToIdx) ∧
    ((itemFit si rats df).sim = (itemFit (itemInit si.k si.minRatings) rats df).sim ∧
      (itemFit si rats df).matrix = (itemFit (itemInit si.k si.minRatings) rats df).matrix ∧
      (∀ id ∈ (itemFit (itemInit si.k si.minRatings) rats df).movieIds,
        alookup id (itemFit si rats df).movieToIdx =
          alookup id (itemFit (itemInit si.k si.minRatings) rats df).movieToIdx)) ∧
    ((userFit su rats df).sim = (userFit (userInit su.k su.minCommon) rats df).sim ∧
      (userFit su rats df).userMeans =
        (userFit (userInit su.k su.minCommon) rats df).userMeans ∧
      (∀ id ∈ (userFit (userInit su.k su.minCommon) rats df).userIds,
        alookup id (userFit su rats df).userToIdx =
          alookup id (userFit (userInit su.k su.minCommon) rats df).userToIdx)) := by
  refine ⟨⟨rfl, rfl, rfl, rfl⟩, ?_, ⟨rfl, rfl, ?_⟩, ⟨rfl, rfl, ?_⟩⟩
  · intro id hid
    apply alookup_dinsertAll_agree
    have h2 : (movies.enum.map (fun p => (p.2.movieId, p.1))).map (fun p => p.1) =
        movies.map (fun mv => mv.movieId) := by
      rw [List.map_map, show ((fun p : ℤ × ℕ => p.1) ∘
        (fun p : ℕ × CMovie ℝ => (p.2.movieId, p.1))) =
        (fun mv : CMovie ℝ => mv.movieId) ∘ Prod.snd from rfl, ← List.map_map,
        List.enum_map_snd]
    rw [h2]
    exact hid
  · intro id hid
    apply alookup_dinsertAll_agree
    have hmk : ∀ (l : List ℤ), (l.enum.map (fun p => (p.2, p.1))).map (fun p => p.1) = l := by
      intro l
      rw [List.map_map, show ((fun p : ℤ × ℕ => p.1) ∘ (fun p : ℕ × ℤ => (p.2, p.1))) =
        Prod.snd from rfl, List.enum_map_snd]
    rw [hmk]
    exact hid
  · intro id hid
    apply alookup_dinsertAll_agree
    have hmk : ∀ (l : List ℤ), (l.enum.map (fun p => (p.2, p.1))).map (fun p => p.1) = l := by
      intro l
      rw [List.map_map, show ((fun p : ℤ × ℕ => p.1) ∘ (fun p : ℕ × ℤ => (p.2, p.1))) =
        Prod.snd from rfl, List.enum_map_snd]
    rw [hmk]
    exact hid

/-- C9 (counterexample): refitting is observationally different from a fresh
fit.  Content model fitted on movies {10, 20}, then refitted on the single
movie {30}: the stale binding `10 ↦ 0` survives in `movie_id_to_idx`, so
`predict_rating(1, 10, [(30, 4.0)])` on the refitted instance answers `4.0`
(treating the stale index 0 as movie 30's row), while a fresh instance fitted
on the same data answers `None` (movie 10 unknown). -/
theorem c9_counterexample :
    contentPredict (contentFit (contentFit contentInit
        [⟨10, 4, 1⟩, ⟨20, 3, 1⟩] [[1, 0], [0, 1]])
      [⟨30, 2, 1⟩] [[1]]) 1 10 [(30, 4)] = some 4 ∧
    contentPredict (contentFit contentInit [⟨30, 2, 1⟩] [[1]]) 1 10 [(30, 4)] =
      none := by
  constructor
  · have hfit : (contentFit (contentFit contentInit
        [⟨10, 4, 1⟩, ⟨20, 3, 1⟩] [[1, 0], [0, 1]])
        [⟨30, 2, 1⟩] [[1]]).isFitted = true := rfl
    have hdict : (contentFit (contentFit contentInit
        [⟨10, 4, 1⟩, ⟨20, 3, 1⟩] [[1, 0], [0, 1]])
        [⟨30, 2, 1⟩] [[1]]).movieIdToIdx = [(30, 0), (20, 1), (10, 0)] := rfl
    have hsim : (contentFit (contentFit contentInit
        [⟨10, 4, 1⟩, ⟨20, 3, 1⟩] [[1, 0], [0, 1]])
        [⟨30, 2, 1⟩] [[1]]).simMat = [[1]] := by
      have h0 : (contentFit (contentFit contentInit
          [⟨10, 4, 1⟩, ⟨20, 3, 1⟩] [[1, 0], [0, 1]])
          [⟨30, 2, 1⟩] [[1]]).simMat = contentSimMat [[1]] := rfl
      rw [h0, contentSimMat]
      simp [simPairs,
        cosSim_self_of_ne_zero (show dotp [(1 : ℝ)] [1] ≠ 0 by norm_num [dotp])]
    rw [contentPredict, hfit, hdict, hsim]
    norm_num [alookup, mget, List.filterMap_cons, List.filter_cons]
  · rfl

/-- C9 (witness): the amended statement applied on concrete fits. -/
theorem c9_witness :
    ((30 : ℤ) ∈ [(⟨30, 2, 1⟩ : CMovie ℝ)].map (fun mv => mv.movieId) ∧
      (10 : ℤ) ∈ (itemFit (itemInit 20 1) [((1 : ℤ), (10 : ℤ), (4 : ℝ))] none).movieIds ∧
      (1 : ℤ) ∈ (userFit (userInit 20 3) [((1 : ℤ), (10 : ℤ), (4 : ℝ))] none).userIds) ∧
    (alookup 30 (contentFit (contentFit contentInit
        [⟨10, 4, 1⟩, ⟨20, 3, 1⟩] [[1, 0], [0, 1]]) [⟨30, 2, 1⟩] [[1]]).movieIdToIdx =
      alookup 30 (contentFit contentInit [⟨30, 2, 1⟩] [[1]]).movieIdToIdx ∧
    alookup 10 (itemFit (itemInit 20 1) [((1 : ℤ), (10 : ℤ), (4 : ℝ))] none).movieToIdx =
      alookup 10 (itemFit (itemInit 20 1) [((1 : ℤ), (10 : ℤ), (4 : ℝ))] none).movieToIdx ∧
    alookup 1 (userFit (userInit 20 3) [((1 : ℤ), (10 : ℤ), (4 : ℝ))] none).userToIdx =
      alookup 1 (userFit (userInit 20 3) [((1 : ℤ), (10 : ℤ), (4 : ℝ))] none).userToIdx) := by
  have h1 : (30 : ℤ) ∈ [(⟨30, 2, 1⟩ : CMovie ℝ)].map (fun mv => mv.movieId) := by simp
  have h2 : (10 : ℤ) ∈ (itemFit (itemInit 20 1)
      [((1 : ℤ), (10 : ℤ), (4 : ℝ))] none).movieIds := by
    rw [show (itemFit (itemInit 20 1) [((1 : ℤ), (10 : ℤ), (4 : ℝ))] none).movieIds =
      [10] from rfl]
    simp
  have h3 : (1 : ℤ) ∈ (userFit (userInit 20 3)
      [((1 : ℤ), (10 : ℤ), (4 : ℝ))] none).userIds := by
    rw [show (userFit (userInit 20 3) [((1 : ℤ), (10 : ℤ), (4 : ℝ))] none).userIds =
      [1] from rfl]
    simp
  have h := c9_amended (contentFit contentInit [⟨10, 4, 1⟩, ⟨20, 3, 1⟩] [[1, 0], [0, 1]])
    [⟨30, 2, 1⟩] [[1]] (itemInit 20 1) (userInit 20 3) [((1 : ℤ), (10 : ℤ), (4 : ℝ))] none
  exact ⟨⟨h1, h2, h3⟩, h.2.1 30 h1, h.2.2.1.2.2 10 h2, h.2.2.2.2.2 1 h3⟩

/-! ### C10 — `recommend_for_user` mutates a non-empty caller exclusion set -/

/-- C10: with a non-empty caller exclusion set and a non-empty rating history,
`ContentBasedModel.recommend_for_user` adds all the user's rated movie ids to
the caller's set in place (`exclude = exclude or set()` keeps the caller's
object only when non-empty, `exclude.update(...)` then mutates it);
`HybridModel.recommend` passes its own set into that call, so its final filter
and its returned exclusion set also contain those rated ids, and no rated id
can appear in the hybrid output. -/
theorem c10_exclude_mutation {α : Type} [LinearOrderedField α] (st : ContentState α)
    (rated : List (ℤ × α)) (n : ℕ) (excl : List ℤ) (junk : ℕ → α)
    (hf : st.isFitted = true) (hrated : rated ≠ []) (hexcl : excl ≠ [])
    (wc wi wu : α) (itemRec userRec : ℕ → List ℤ → List (Rec α)) :
    (∀ n2, (contentAsSub st rated junk n2 excl).2 = excl ++ rated.map (fun r => r.1)) ∧
    (∀ m ∈ rated.map (fun r => r.1),
      m ∉ (hybridRecommend true wc wi wu (contentAsSub st rated junk)
        itemRec userRec n excl).1.map (fun e => e.movieId)) ∧
    (hybridRecommend true wc wi wu (contentAsSub st rated junk)
      itemRec userRec n excl).2 = excl ++ rated.map (fun r => r.1) := by
  have ha : ∀ n2, (contentAsSub st rated junk n2 excl).2 =
      excl ++ rated.map (fun r => r.1) := by
    intro n2
    simp only [contentAsSub]
    rw [contentRecommendForUser, hf]
    simp only [Bool.not_true, Bool.false_eq_true, if_false]
    rw [if_neg (by simpa using hrated)]
    simp only []
    rw [if_neg (by simpa using hexcl)]
  have hb : ∀ e ∈ (hybridRecommend true wc wi wu (contentAsSub st rated junk)
      itemRec userRec n excl).1,
      e.movieId ∉ (contentAsSub st rated junk (n * 2) excl).2 := by
    intro e he
    rw [hybridRecommend] at he
    simp only [Bool.not_true, Bool.false_eq_true, if_false] at he
    have he2 := (List.take_sublist _ _).mem he
    rw [sortDescBy_mem] at he2
    rw [hybridBlend] at he2
    obtain ⟨c, _, hce⟩ := List.mem_filterMap.mp he2
    by_cases hex : c.movieId ∈ (contentAsSub st rated junk (n * 2) excl).2
    · rw [if_pos hex] at hce
      cases hce
    · rw [if_neg hex] at hce
      cases hce
      exact hex
  refine ⟨ha, ?_, ?_⟩
  · intro m hm hmem
    obtain ⟨e, he, hme⟩ := List.mem_map.mp hmem
    have := hb e he
    rw [ha (n * 2), hme] at this
    exact this (List.mem_append.mpr (Or.inr hm))
  · rw [hybridRecommend]
    simp only [Bool.not_true, Bool.false_eq_true, if_false]
    exact ha (n * 2)

/-- C10 (witness): a fitted `ℚ` content model, rated history `[(10, 4)]`,
caller exclusion set `[99]`. -/
theorem c10_witness :
    (cqs.isFitted = true ∧ ([((10 : ℤ), (4 : ℚ))] : List (ℤ × ℚ)) ≠ [] ∧
      ([99] : List ℤ) ≠ []) ∧
    (∀ n2, (contentAsSub cqs [((10 : ℤ), (4 : ℚ))] (fun _ => 0) n2 [99]).2 =
      [99] ++ [(10 : ℤ)]) ∧
    (hybridRecommend true (1 : ℚ) 1 1 (contentAsSub cqs [((10 : ℤ), (4 : ℚ))] (fun _ => 0))
      (fun _ _ => []) (fun _ _ => []) 3 [99]).2 = [99] ++ [(10 : ℤ)] := by
  have h := c10_exclude_mutation cqs [((10 : ℤ), (4 : ℚ))] 3 [99] (fun _ => 0)
    rfl (by simp) (by simp) (1 : ℚ) 1 1 (fun _ _ => []) (fun _ _ => [])
  exact ⟨⟨rfl, by simp, by simp⟩, fun n2 => h.1 n2, h.2.2⟩
